import Mathlib

/-!
# Verification of the Excel merge core (`internal/core/merger.go`)

This file gives a shallow embedding, in Lean 4, of the merge orchestration and
row-filtering pipeline of the Merge-excel repository:

* the pure row filters `filterEmptyRows`, `filterRowsByColumnValue`,
  `extractArticlesFromRows`, `filterRowsByArticles` from
  `internal/core/merger.go`;
* the spreadsheet reader/writer interface (`internal/excel/reader.go`,
  `internal/excel/writer.go`) modelled over an explicit file-system map;
* the orchestrator `MergeFiles` / `mergeSheetWithWriter`
  from `internal/core/merger.go`, modelled as a pure function that threads the
  writer, the warning list, the progress counter and the accumulated
  template-article set through the per-file loop.

Rows are lists of cell strings; a workbook maps sheet names to optionally
readable row lists (`none` models a sheet whose rows cannot be read); a file
system maps paths to optionally openable workbooks.  Progress emissions and the
order in which (file, sheet) pairs are visited are recorded as explicit traces
on the state, mirroring the call sites of `notifyProgress`.
-/

namespace MergeExcel

/-- A spreadsheet row: an ordered list of cell strings. -/
abbrev Row := List String

/-! ## Go string primitives

`strings.TrimSpace`, `strings.ToLower` and `strings.Contains` as used by the
merger.  `goToLower` implements the Unicode simple case map on the alphabets the
program actually manipulates (ASCII and Cyrillic); `goTrimSpace` strips the
white-space characters recognised by Go's `unicode.IsSpace` that can occur in
those alphabets. -/

/-- White space as tested by Go's `unicode.IsSpace` (ASCII controls, space,
NEL and NBSP). -/
def isSpaceChar (c : Char) : Bool :=
  c == ' ' || c == '\t' || c == '\n' || c == '\r' ||
    c.toNat == 11 || c.toNat == 12 || c.toNat == 0x85 || c.toNat == 0xA0

/-- `strings.TrimSpace` on the character list. -/
def trimSpaceList (l : List Char) : List Char :=
  ((l.dropWhile isSpaceChar).reverse.dropWhile isSpaceChar).reverse

/-- Go `strings.TrimSpace`. -/
def goTrimSpace (s : String) : String :=
  ⟨trimSpaceList s.toList⟩

/-- Unicode simple lower-case map on ASCII (`A`–`Z`) and Cyrillic
(`А`–`Я`, `Ѐ`–`Џ`), as applied by Go's `strings.ToLower`. -/
def charLower (c : Char) : Char :=
  if 'A' ≤ c ∧ c ≤ 'Z' then Char.ofNat (c.toNat + 32)
  else if 0x410 ≤ c.toNat ∧ c.toNat ≤ 0x42F then Char.ofNat (c.toNat + 0x20)
  else if 0x400 ≤ c.toNat ∧ c.toNat ≤ 0x40F then Char.ofNat (c.toNat + 0x50)
  else c

/-- Go `strings.ToLower`. -/
def goToLower (s : String) : String :=
  ⟨s.toList.map charLower⟩

/-- Substring occurrence on character lists: `sub` occurs in the list at some
position. -/
def hasSubstrList (sub : List Char) : List Char → Bool
  | [] => sub.isEmpty
  | c :: rest => sub.isPrefixOf (c :: rest) || hasSubstrList sub rest

/-- Go `strings.Contains s sub`. -/
def containsSubstr (s sub : String) : Bool :=
  hasSubstrList sub.toList s.toList

/-- Split a character list on `/` separators. -/
def splitSlash (acc : List Char) : List Char → List (List Char)
  | [] => [acc.reverse]
  | c :: rest =>
    if c = '/' then acc.reverse :: splitSlash [] rest
    else splitSlash (c :: acc) rest

/-- Go `filepath.Base` (forward-slash separator): the last non-empty path
component, `"."` for the empty path, `"/"` when the path is all separators. -/
def filepathBase (path : String) : String :=
  if path = "" then "."
  else ⟨((splitSlash [] path.toList).filter (fun s => s ≠ [])).getLastD ['/']⟩

/-! ## The pure row filters (`merger.go`, lines 427–561) -/

/-- The inner loop of `filterEmptyRows`: a row is empty iff every cell is the
empty string. -/
def rowIsEmpty (row : Row) : Bool :=
  row.all (fun cell => cell == "")

/-- `filterEmptyRows` (merger.go:428): drop rows whose cells are all empty. -/
def filterEmptyRows (rows : List Row) : List Row :=
  rows.filter (fun row => !(rowIsEmpty row))

/-- Cell normalisation used by the column-value filter (merger.go:457,470):
`strings.ToLower(strings.TrimSpace v)`. -/
def normValue (v : String) : String :=
  goToLower (goTrimSpace v)

/-- `filterRowsByColumnValue` (merger.go:449): keep rows whose cell in column
`columnIndex`, normalised, equals one of the normalised `filterValues`; rows
too short for the column are dropped; a negative column or empty value list
disables the filter. -/
def filterRowsByColumnValue (rows : List Row) (columnIndex : Int)
    (filterValues : List String) : List Row :=
  if columnIndex < 0 ∨ filterValues = [] then rows
  else
    let normalizedFilterValues := filterValues.map normValue
    rows.filter (fun row =>
      if (row.length : Int) ≤ columnIndex then false
      else normalizedFilterValues.contains (normValue (row.getD columnIndex.toNat "")))

/-- The marker substring `"артикул"` searched for in header cells
(merger.go:500,538). -/
def articleMarker : String := "артикул"

/-- The header scan of `extractArticlesFromRows` and `filterRowsByArticles`
(merger.go:498–504, 536–542): walk the header cells with a running index,
stopping at the first whose lower-cased text contains the marker. -/
def findArticleColumnAux (i : Nat) : List String → Option Nat
  | [] => none
  | header :: rest =>
    if containsSubstr (goToLower header) articleMarker then some i
    else findArticleColumnAux (i + 1) rest

/-- Index of the first header cell whose lower-cased text contains the
marker. -/
def findArticleColumn (headerRow : List String) : Option Nat :=
  findArticleColumnAux 0 headerRow

/-- One iteration of the extraction loop (merger.go:512–519): record the
trimmed cell of the article column when the row reaches that column and the
trimmed value is non-empty. -/
def insertArticle (i : Nat) (articles : List String) (row : Row) :
    List String :=
  if i < row.length then
    let article := goTrimSpace (row.getD i "")
    if article ≠ "" then articles.insert article else articles
  else articles

/-- `extractArticlesFromRows` (merger.go:494): collect the set of trimmed,
non-empty cells in the article column of each data row; empty when no header
cell contains the marker.  The Go `map[string]bool` is modelled as a
duplicate-free list. -/
def extractArticlesFromRows (headerRow : List String) (dataRows : List Row) :
    List String :=
  match findArticleColumn headerRow with
  | none => []
  | some i => dataRows.foldl (insertArticle i) []

/-- `filterRowsByArticles` (merger.go:529): keep rows whose trimmed article
cell is in the key set; the empty key set and the missing article column both
yield the empty row list. -/
def filterRowsByArticles (headerRow : List String) (dataRows : List Row)
    (articles : List String) : List Row :=
  if articles = [] then []
  else
    match findArticleColumn headerRow with
    | none => []
    | some i =>
      dataRows.filter (fun row =>
        if i < row.length then articles.contains (goTrimSpace (row.getD i ""))
        else false)

/-- Union of key sets, as performed by the accumulation loop
`for article := range articles { m.templateArticles[article] = true }`
(merger.go:370). -/
def unionKeys (acc articles : List String) : List String :=
  articles.foldl (fun acc a => acc.insert a) acc

/-! ## Workbooks, the reader and the writer

A workbook maps sheet names to `Option (List Row)`; `none` models a sheet that
is listed by the workbook but whose rows cannot be read (the error path of
`Reader.GetRows`).  A file system maps paths to `Option Workbook`; `none`
models a file that `excel.NewReader` fails to open. -/

/-- A workbook: an association list from sheet name to optionally readable
rows. -/
structure Workbook where
  sheets : List (String × Option (List Row))
deriving DecidableEq

/-- The file system seen by the merger: which path opens to which workbook. -/
abbrev FileSystem := String → Option Workbook

/-- `Reader.SheetExists` (reader, line 58): the sheet is listed. -/
def sheetExists (wb : Workbook) (sheetName : String) : Bool :=
  (wb.sheets.lookup sheetName).isSome

/-- `Reader.GetRows` (reader, line 68): all rows of the sheet, failing when the
sheet is absent or unreadable. -/
def getRows (wb : Workbook) (sheetName : String) : Option (List Row) :=
  match wb.sheets.lookup sheetName with
  | none => none
  | some r => r

/-- `Reader.GetDataRows` (reader, line 122): the rows strictly after the
1-based header row; empty when the sheet has no rows past the header.  (Go
panics on a negative `headerRowNum`; the merger only passes validated
`headerRow ≥ 1`.) -/
def getDataRows (wb : Workbook) (sheetName : String) (headerRowNum : Int) :
    Option (List Row) :=
  (getRows wb sheetName).map (fun rows =>
    if (rows.length : Int) ≤ headerRowNum then []
    else rows.drop headerRowNum.toNat)

/-- The output workbook under construction: for each created sheet, the list of
`(rowNumber, row)` writes in the order `Writer.WriteRows` performed them. -/
structure Writer where
  sheets : List (String × List (Int × Row))
deriving DecidableEq

/-- `Writer.CreateSheet` (writer.go:44). -/
def Writer.createSheet (w : Writer) (sheetName : String) : Writer :=
  ⟨w.sheets ++ [(sheetName, [])]⟩

/-- The `(rowNumber, row)` pairs produced by `Writer.WriteRows sheetName
startRow rows` (writer.go:99): row `i` of the batch lands at `startRow + i`. -/
def writeRowsAt (startRow : Int) : List Row → List (Int × Row)
  | [] => []
  | r :: rest => (startRow, r) :: writeRowsAt (startRow + 1) rest

/-- `Writer.WriteRows` (writer.go:99), recorded against the named sheet. -/
def Writer.writeRows (w : Writer) (sheetName : String) (startRow : Int)
    (rows : List Row) : Writer :=
  ⟨w.sheets.map (fun p =>
    if p.1 = sheetName then (p.1, p.2 ++ writeRowsAt startRow rows) else p)⟩

/-- The writes recorded against one sheet of the output workbook. -/
def Writer.sheetWrites (w : Writer) (sheetName : String) : List (Int × Row) :=
  (w.sheets.lookup sheetName).getD []

/-! ## The orchestrator (`merger.go`, lines 80–425) -/

/-- The fields of `core.SheetConfig` consumed by the merger. -/
structure SheetConfig where
  enabled : Bool
  headerRow : Int
  filterColumn : Int
  filterValues : List String
  useTemplateArticles : Bool
deriving DecidableEq

/-- A `notifyProgress` emission (merger.go:291). -/
structure ProgressUpdate where
  current : Nat
  total : Nat
  message : String
deriving DecidableEq

/-- The hard-coded template sheet name (merger.go:117). -/
def templateSheetName : String := "Шаблон"

/-- The state threaded through the per-file loop of `mergeSheetWithWriter`:
the output writer, this sheet's warnings, the run-wide progress counter, the
emitted progress updates, the visited `(file, sheet)` pairs, the accumulated
template-article set, the next free output row and this sheet's merged-row
count. -/
structure SheetMergeState where
  writer : Writer
  warnings : List String
  currentOp : Nat
  progress : List ProgressUpdate
  ops : List (String × String)
  templateArticles : List String
  currentRow : Int
  rowsMerged : Nat
deriving DecidableEq

/-- The header cells handed to key extraction and key filtering
(merger.go:361–364 and 386–389): row `headerRow` of the base file when it is in
range, the empty row otherwise. -/
def headerCells (config : SheetConfig) (baseRows : List Row) : List String :=
  if config.headerRow > 0 ∧ (baseRows.length : Int) ≥ config.headerRow then
    baseRows.getD (config.headerRow - 1).toNat []
  else []

/-- The unconditional blank-row stage followed by the optional column-value
stage (merger.go:327–356). -/
def colPipeline (config : SheetConfig) (rows0 : List Row) : List Row :=
  let dataRows := filterEmptyRows rows0
  if 0 ≤ config.filterColumn ∧ config.filterValues ≠ [] then
    filterRowsByColumnValue dataRows config.filterColumn config.filterValues
  else dataRows

/-- The optional key-based stage (merger.go:381–403): applied only when the
sheet requests it, the accumulated key set is non-empty and the batch is
non-empty. -/
def keyStage (config : SheetConfig) (header : List String)
    (articles : List String) (dataRows : List Row) : List Row :=
  if config.useTemplateArticles ∧ articles ≠ [] ∧ dataRows ≠ [] then
    filterRowsByArticles header dataRows articles
  else dataRows

/-- The per-file body of `mergeSheetWithWriter` after the progress emission
(merger.go:297–422): open the file, check the sheet, read the data rows —
each failure appends one warning and skips the file — then filter, extract
template keys on the template sheet, apply the key stage and write the
survivors at the current row. -/
def processFileBody (fs : FileSystem) (sheetName : String)
    (config : SheetConfig) (baseRows : List Row) (st : SheetMergeState)
    (filePath : String) : SheetMergeState :=
  match fs filePath with
  | none =>
    { st with warnings := st.warnings ++
        ["не удалось открыть файл " ++ filepathBase filePath] }
  | some wb =>
    if sheetExists wb sheetName then
      match getDataRows wb sheetName config.headerRow with
      | none =>
        { st with warnings := st.warnings ++
            ["не удалось прочитать данные из " ++ filepathBase filePath] }
      | some rows0 =>
        let dataRows := colPipeline config rows0
        let st :=
          if sheetName = templateSheetName ∧ dataRows ≠ [] then
            { st with templateArticles := (unionKeys st.templateArticles
                (extractArticlesFromRows (headerCells config baseRows) dataRows)) }
          else st
        let written := keyStage config (headerCells config baseRows)
          st.templateArticles dataRows
        if written ≠ [] then
          { st with
              writer := st.writer.writeRows sheetName st.currentRow written,
              currentRow := st.currentRow + (written.length : Int),
              rowsMerged := st.rowsMerged + written.length }
        else st
    else
      { st with warnings := st.warnings ++
          ["лист '" ++ sheetName ++ "' не найден в файле " ++
            filepathBase filePath] }

/-- One iteration of the file loop (merger.go:291–422): bump the operation
counter, emit the progress update, record the visited pair, then run the body.
`numFiles` is `len(allFiles)` and `idx` the 0-based position, both only used in
the progress message. -/
def progressMsg (filePath sheetName : String) (idx numFiles : Nat) : String :=
  "Обработка " ++ filepathBase filePath ++ ", лист " ++ sheetName ++
    " (" ++ toString (idx + 1) ++ "/" ++ toString numFiles ++ ")"

def processFile (fs : FileSystem) (sheetName : String) (config : SheetConfig)
    (baseRows : List Row) (totalOps numFiles idx : Nat) (st : SheetMergeState)
    (filePath : String) : SheetMergeState :=
  let cur := st.currentOp + 1
  processFileBody fs sheetName config baseRows
    { st with
        currentOp := cur,
        progress := st.progress ++
          [⟨cur, totalOps, progressMsg filePath sheetName idx numFiles⟩],
        ops := st.ops ++ [(filePath, sheetName)] }
    filePath

/-- The `for i, filePath := range allFiles` loop of `mergeSheetWithWriter`
(merger.go:291). -/
def processFiles (fs : FileSystem) (sheetName : String) (config : SheetConfig)
    (baseRows : List Row) (totalOps numFiles : Nat) (idx : Nat)
    (st : SheetMergeState) : List String → SheetMergeState
  | [] => st
  | filePath :: rest =>
    processFiles fs sheetName config baseRows totalOps numFiles (idx + 1)
      (processFile fs sheetName config baseRows totalOps numFiles idx st
        filePath) rest

/-- `mergeSheetWithWriter` (merger.go:241): create the output sheet, open the
base file (fatal on failure), copy rows `1..headerRow` verbatim, then fold the
per-file loop over `[baseFilePath] ++ filePaths`. -/
def mergeSheetWithWriter (fs : FileSystem) (writer : Writer)
    (sheetName : String) (config : SheetConfig) (baseFilePath : String)
    (filePaths : List String) (currentOp : Nat)
    (progress : List ProgressUpdate) (ops : List (String × String))
    (templateArticles : List String) (totalOps : Nat) :
    Except String SheetMergeState :=
  let writer := writer.createSheet sheetName
  match fs baseFilePath with
  | none => .error "не удалось открыть базовый файл"
  | some baseWb =>
    if sheetExists baseWb sheetName then
      match getRows baseWb sheetName with
      | none => .error "не удалось прочитать базовый файл"
      | some baseRows =>
        let writer :=
          if config.headerRow > 0 ∧ (baseRows.length : Int) ≥ config.headerRow
          then writer.writeRows sheetName 1 (baseRows.take config.headerRow.toNat)
          else writer
        let allFiles := baseFilePath :: filePaths
        let st0 : SheetMergeState :=
          ⟨writer, [], currentOp, progress, ops, templateArticles,
            config.headerRow + 1, 0⟩
        .ok (processFiles fs sheetName config baseRows totalOps
          allFiles.length 0 st0 allFiles)
    else .error ("лист '" ++ sheetName ++ "' не найден в базовом файле")

/-- `core.SheetStat` (merger.go:75). -/
structure SheetStat where
  rowsMerged : Nat
  filesCount : Nat
deriving DecidableEq

/-- The observable fields of `core.MergeResult` (merger.go:64). -/
structure MergeResult where
  processedFiles : Nat
  processedSheets : Nat
  totalRows : Nat
  sheetStats : List (String × SheetStat)
  warnings : List String
deriving DecidableEq

/-- The run-wide accumulator of `MergeFiles`: the writer, the progress counter
and traces, the key set, and the `MergeResult` fields populated so far. -/
structure RunState where
  writer : Writer
  currentOp : Nat
  progress : List ProgressUpdate
  ops : List (String × String)
  templateArticles : List String
  processedSheets : Nat
  totalRows : Nat
  sheetStats : List (String × SheetStat)
  warnings : List String
deriving DecidableEq

/-- Process one enabled sheet inside `MergeFiles` (merger.go:121–134 and
151–163): run `mergeSheetWithWriter`, then fold its statistics, warnings and
traces into the run state. -/
def runSheet (fs : FileSystem) (baseFilePath : String) (filePaths : List String)
    (totalFiles totalOperations : Nat) (rs : RunState) (sheetName : String)
    (config : SheetConfig) : Except String RunState :=
  match mergeSheetWithWriter fs rs.writer sheetName config baseFilePath
      filePaths rs.currentOp rs.progress rs.ops rs.templateArticles
      totalOperations with
  | .error e => .error ("ошибка при обработке листа '" ++ sheetName ++ "': " ++ e)
  | .ok st =>
    .ok { writer := st.writer,
          currentOp := st.currentOp,
          progress := st.progress,
          ops := st.ops,
          templateArticles := st.templateArticles,
          processedSheets := rs.processedSheets + 1,
          totalRows := rs.totalRows + st.rowsMerged,
          sheetStats := rs.sheetStats ++ [(sheetName, ⟨st.rowsMerged, totalFiles⟩)],
          warnings := rs.warnings ++ st.warnings }

/-- The loop over the remaining sheets (merger.go:139–164): skip the template
sheet and disabled sheets, process the rest in order. -/
def sheetsFold (fs : FileSystem) (baseFilePath : String)
    (filePaths : List String) (totalFiles totalOperations : Nat)
    (acc : Except String RunState) (l : List (String × SheetConfig)) :
    Except String RunState :=
  l.foldl (fun acc p =>
    match acc with
    | .error e => .error e
    | .ok rs =>
      if p.1 = templateSheetName then .ok rs
      else if p.2.enabled then
        runSheet fs baseFilePath filePaths totalFiles totalOperations rs p.1 p.2
      else .ok rs) acc

/-- Everything a `MergeFiles` run produces: the `MergeResult`, the output
workbook, and the recorded progress, visiting order and final key set. -/
structure MergeOutput where
  result : MergeResult
  writer : Writer
  progress : List ProgressUpdate
  ops : List (String × String)
  templateArticles : List String
deriving DecidableEq

/-- The run state at the start of a `MergeFiles` call: fresh writer, empty
traces, empty key set (merger.go:98–114). -/
def initialRunState : RunState :=
  ⟨⟨[]⟩, 0, [], [], [], 0, 0, [], []⟩

/-- The body of `MergeFiles` after the argument checks (merger.go:108–166):
process the template sheet first when present and enabled (merger.go:116–136),
then the remaining enabled sheets. -/
def mergeBody (fs : FileSystem) (baseFilePath : String)
    (filePaths : List String) (sheetConfigs : List (String × SheetConfig))
    (totalFiles totalOperations : Nat) : Except String RunState :=
  let afterTemplate : Except String RunState :=
    match sheetConfigs.lookup templateSheetName with
    | some templateConfig =>
      if templateConfig.enabled then
        runSheet fs baseFilePath filePaths totalFiles totalOperations
          initialRunState templateSheetName templateConfig
      else .ok initialRunState
    | none => .ok initialRunState
  sheetsFold fs baseFilePath filePaths totalFiles totalOperations
    afterTemplate sheetConfigs

/-- Package the final run state as a `MergeOutput`
(merger.go:166 sets `ProcessedFiles`). -/
def buildOutput (totalFiles : Nat) (rs : RunState) : MergeOutput :=
  { result :=
      { processedFiles := totalFiles,
        processedSheets := rs.processedSheets,
        totalRows := rs.totalRows,
        sheetStats := rs.sheetStats,
        warnings := rs.warnings },
    writer := rs.writer,
    progress := rs.progress,
    ops := rs.ops,
    templateArticles := rs.templateArticles }

/-- `Merger.MergeFiles` (merger.go:83): fail fast on an empty base path or an
empty config map, otherwise run the two-phase merge.  The Go `map` over sheet
names is modelled as an association list with distinct keys; map iteration
order is arbitrary in Go, here it is the list order (the spec leaves it
unspecified beyond the template-first rule). -/
def MergeFiles (fs : FileSystem) (baseFilePath : String)
    (filePaths : List String) (sheetConfigs : List (String × SheetConfig)) :
    Except String MergeOutput :=
  if baseFilePath = "" then .error "путь к базовому файлу не указан"
  else if sheetConfigs = [] then .error "нет листов для обработки"
  else
    let totalFiles := 1 + filePaths.length
    let totalOperations := sheetConfigs.length * totalFiles
    (mergeBody fs baseFilePath filePaths sheetConfigs totalFiles
      totalOperations).map (buildOutput totalFiles)

/-! ## Per-file observations

Derived views of one file's processing, used to state properties of the loop:
what the file's read attempt yields, the warnings it generates, and the rows it
contributes before the key stage. -/

/-- The outcome of the three read attempts on one file (open, sheet check,
data-row read): `none` is a recoverable per-file failure. -/
def fileReadResult (fs : FileSystem) (sheetName : String) (config : SheetConfig)
    (path : String) : Option (List Row) :=
  match fs path with
  | none => none
  | some wb =>
    if sheetExists wb sheetName then getDataRows wb sheetName config.headerRow
    else none

/-- The warning strings one file appends: exactly one per recoverable
failure, none on success. -/
def fileWarnings (fs : FileSystem) (sheetName : String) (config : SheetConfig)
    (path : String) : List String :=
  match fs path with
  | none => ["не удалось открыть файл " ++ filepathBase path]
  | some wb =>
    if sheetExists wb sheetName then
      match getDataRows wb sheetName config.headerRow with
      | none => ["не удалось прочитать данные из " ++ filepathBase path]
      | some _ => []
    else ["лист '" ++ sheetName ++ "' не найден в файле " ++ filepathBase path]

/-- The rows one file feeds into the key stage: its data rows through the
blank-row and column-value stages, empty on a recoverable failure. -/
def fileContribRows (fs : FileSystem) (sheetName : String)
    (config : SheetConfig) (path : String) : List Row :=
  match fileReadResult fs sheetName config path with
  | none => []
  | some rows0 => colPipeline config rows0

/-! ## Basic lemmas about the pure filters -/

theorem mem_filterEmptyRows (rows : List Row) (row : Row) :
    row ∈ filterEmptyRows rows ↔ row ∈ rows ∧ ∃ c ∈ row, c ≠ "" := by
  simp only [filterEmptyRows, List.mem_filter, Bool.not_eq_true']
  constructor
  · rintro ⟨hmem, hne⟩
    refine ⟨hmem, ?_⟩
    by_contra hall
    push_neg at hall
    have : rowIsEmpty row = true := by
      simp only [rowIsEmpty, List.all_eq_true, beq_iff_eq]
      exact hall
    simp [this] at hne
  · rintro ⟨hmem, c, hc, hcne⟩
    refine ⟨hmem, ?_⟩
    by_contra htrue
    simp only [Bool.not_eq_false] at htrue
    simp only [rowIsEmpty, List.all_eq_true, beq_iff_eq] at htrue
    exact hcne (htrue c hc)

theorem filterEmptyRows_idem (rows : List Row) :
    filterEmptyRows (filterEmptyRows rows) = filterEmptyRows rows := by
  simp [filterEmptyRows, List.filter_filter]

/-- C9: `filterEmptyRows` retains exactly the rows with at least one non-empty
cell — a row is dropped iff every cell is the empty string — and is therefore
idempotent. -/
theorem C9_filterEmptyRows_characterization_and_idempotent (rows : List Row) :
    (∀ row, row ∈ filterEmptyRows rows ↔ row ∈ rows ∧ ∃ c ∈ row, c ≠ "") ∧
    filterEmptyRows (filterEmptyRows rows) = filterEmptyRows rows :=
  ⟨fun row => mem_filterEmptyRows rows row, filterEmptyRows_idem rows⟩

/-- C6: with a non-negative column index and non-empty allow-list,
`filterRowsByColumnValue` keeps a row iff the index is within the row's bounds
and the normalised (trimmed, lower-cased) cell equals a normalised allow-list
entry; out-of-bounds rows are dropped; a negative index or empty allow-list
makes it the identity. -/
theorem C6_filterRowsByColumnValue_characterization (rows : List Row)
    (columnIndex : Int) (filterValues : List String) :
    ((columnIndex < 0 ∨ filterValues = []) →
      filterRowsByColumnValue rows columnIndex filterValues = rows) ∧
    (0 ≤ columnIndex → filterValues ≠ [] → ∀ row,
      row ∈ filterRowsByColumnValue rows columnIndex filterValues ↔
        row ∈ rows ∧ columnIndex < (row.length : Int) ∧
          ∃ v ∈ filterValues,
            normValue (row.getD columnIndex.toNat "") = normValue v) := by
  constructor
  · intro h
    simp [filterRowsByColumnValue, h]
  · intro hge hne row
    have hcond : ¬(columnIndex < 0 ∨ filterValues = []) := by
      push_neg
      exact ⟨hge, hne⟩
    simp only [filterRowsByColumnValue, if_neg hcond, List.mem_filter]
    constructor
    · rintro ⟨hmem, hkeep⟩
      refine ⟨hmem, ?_⟩
      by_cases hlen : (row.length : Int) ≤ columnIndex
      · simp [hlen] at hkeep
      · push_neg at hlen
        refine ⟨hlen, ?_⟩
        simp only [if_neg (not_le.mpr hlen)] at hkeep
        have := List.mem_of_elem_eq_true hkeep
        obtain ⟨v, hv, hveq⟩ := List.mem_map.mp this
        exact ⟨v, hv, hveq.symm⟩
    · rintro ⟨hmem, hlt, v, hv, hveq⟩
      refine ⟨hmem, ?_⟩
      simp only [if_neg (not_le.mpr hlt)]
      exact List.elem_eq_true_of_mem (List.mem_map.mpr ⟨v, hv, hveq.symm⟩)

/-- Witness for C6 at a concrete batch: the disabled case is the identity and a
matching in-bounds row is retained. -/
theorem C6_witness :
    filterRowsByColumnValue [["x"]] (-1) ["a"] = [["x"]] ∧
    (["x", "A"] ∈ filterRowsByColumnValue [["x", "A"], ["y"]] 1 ["a"] ↔
      ["x", "A"] ∈ [["x", "A"], ["y"]] ∧ (1 : Int) < ((["x", "A"] : Row).length : Int) ∧
        ∃ v ∈ ["a"], normValue ((["x", "A"] : Row).getD (1 : Int).toNat "") = normValue v) :=
  ⟨(C6_filterRowsByColumnValue_characterization [["x"]] (-1) ["a"]).1
      (Or.inl (by decide)),
   (C6_filterRowsByColumnValue_characterization [["x", "A"], ["y"]] 1 ["a"]).2
      (by decide) (by decide) ["x", "A"]⟩

/-! ## Writer lemmas -/

theorem writeRowsAt_length (startRow : Int) (rows : List Row) :
    (writeRowsAt startRow rows).length = rows.length := by
  induction rows generalizing startRow with
  | nil => rfl
  | cons r rest ih => simp [writeRowsAt, ih]

theorem writeRowsAt_map_snd (startRow : Int) (rows : List Row) :
    (writeRowsAt startRow rows).map Prod.snd = rows := by
  induction rows generalizing startRow with
  | nil => rfl
  | cons r rest ih => simp [writeRowsAt, ih]

theorem writeRowsAt_map_fst (startRow : Int) (rows : List Row) :
    (writeRowsAt startRow rows).map Prod.fst =
      (List.range rows.length).map (fun (i : Nat) => startRow + (i : Int)) := by
  induction rows generalizing startRow with
  | nil => rfl
  | cons r rest ih =>
    rw [writeRowsAt, List.map_cons, ih, List.length_cons,
      List.range_succ_eq_map, List.map_cons, List.map_map]
    congr 1
    · simp
    · apply List.map_congr_left
      intro i _
      simp only [Function.comp_apply, Nat.succ_eq_add_one]
      push_cast
      ring

theorem Writer.writeRows_nil (w : Writer) (sheetName : String)
    (startRow : Int) : w.writeRows sheetName startRow [] = w := by
  cases w with
  | mk sheets =>
    simp only [Writer.writeRows, writeRowsAt, List.append_nil, Writer.mk.injEq]
    have : ∀ p : String × List (Int × Row),
        (if p.1 = sheetName then (p.1, p.2) else p) = p := by
      intro p
      split <;> rfl
    simp [this]

theorem lookup_writeRows (sheets : List (String × List (Int × Row)))
    (s : String) (r : Int) (rows : List Row) :
    (sheets.map (fun p =>
        if p.1 = s then (p.1, p.2 ++ writeRowsAt r rows) else p)).lookup s =
      (sheets.lookup s).map (fun v => v ++ writeRowsAt r rows) := by
  induction sheets with
  | nil => rfl
  | cons p rest ih =>
    rcases p with ⟨k, v⟩
    by_cases he : k = s
    · subst he
      simp [List.lookup_cons]
    · have hbe : (s == k) = false := beq_eq_false_iff_ne.mpr (Ne.symm he)
      simp [List.lookup_cons, he, hbe, ih]

theorem Writer.sheetWrites_writeRows (w : Writer) (s : String) (r : Int)
    (rows : List Row) (h : (w.sheets.lookup s).isSome = true) :
    (w.writeRows s r rows).sheetWrites s =
      w.sheetWrites s ++ writeRowsAt r rows := by
  obtain ⟨v, hv⟩ := Option.isSome_iff_exists.mp h
  cases w with
  | mk sheets =>
    simp [Writer.writeRows, Writer.sheetWrites, lookup_writeRows, hv]

theorem Writer.lookup_writeRows_isSome (w : Writer) (s : String) (r : Int)
    (rows : List Row) :
    (((w.writeRows s r rows).sheets.lookup s)).isSome =
      ((w.sheets.lookup s)).isSome := by
  cases w with
  | mk sheets =>
    simp [Writer.writeRows, lookup_writeRows]

/-! ## Key-set lemmas -/

theorem unionKeys_nil (acc : List String) : unionKeys acc [] = acc := rfl

theorem mem_unionKeys (acc l : List String) (a : String) :
    a ∈ unionKeys acc l ↔ a ∈ acc ∨ a ∈ l := by
  induction l generalizing acc with
  | nil => simp [unionKeys]
  | cons x xs ih =>
    have : unionKeys acc (x :: xs) = unionKeys (acc.insert x) xs := rfl
    rw [this, ih]
    simp [List.mem_insert_iff]
    tauto

theorem extractArticlesFromRows_nil (headerRow : List String) :
    extractArticlesFromRows headerRow [] = [] := by
  unfold extractArticlesFromRows
  cases h : findArticleColumn headerRow <;> simp

/-! ## Per-file body lemmas -/

theorem fileWarnings_of_success (fs : FileSystem) (sn : String)
    (cfg : SheetConfig) (path : String) (rows0 : List Row)
    (h : fileReadResult fs sn cfg path = some rows0) :
    fileWarnings fs sn cfg path = [] := by
  unfold fileWarnings
  unfold fileReadResult at h
  cases hfs : fs path with
  | none => rw [hfs] at h; cases h
  | some wb =>
    rw [hfs] at h
    by_cases hex : sheetExists wb sn = true
    · simp only [hex, if_true] at h ⊢
      rw [h]
    · simp [hex] at h

theorem fileWarnings_of_failure (fs : FileSystem) (sn : String)
    (cfg : SheetConfig) (path : String)
    (h : fileReadResult fs sn cfg path = none) :
    (fileWarnings fs sn cfg path).length = 1 := by
  unfold fileWarnings
  unfold fileReadResult at h
  cases hfs : fs path with
  | none => simp
  | some wb =>
    rw [hfs] at h
    by_cases hex : sheetExists wb sn = true
    · simp only [hex, if_true] at h ⊢
      rw [h]
      rfl
    · simp [hex]

theorem processFileBody_failure (fs : FileSystem) (sn : String)
    (cfg : SheetConfig) (baseRows : List Row) (st : SheetMergeState)
    (path : String) (h : fileReadResult fs sn cfg path = none) :
    processFileBody fs sn cfg baseRows st path =
      { st with warnings := st.warnings ++ fileWarnings fs sn cfg path } := by
  unfold processFileBody fileWarnings
  unfold fileReadResult at h
  cases hfs : fs path with
  | none => simp
  | some wb =>
    rw [hfs] at h
    by_cases hex : sheetExists wb sn = true
    · simp only [hex, if_true] at h ⊢
      cases hd : getDataRows wb sn cfg.headerRow with
      | none => simp
      | some rows0 => rw [hd] at h; cases h
    · simp [hex]

theorem processFileBody_success (fs : FileSystem) (sn : String)
    (cfg : SheetConfig) (baseRows : List Row) (st : SheetMergeState)
    (path : String) (rows0 : List Row)
    (h : fileReadResult fs sn cfg path = some rows0) :
    processFileBody fs sn cfg baseRows st path =
      (let dataRows := colPipeline cfg rows0
       let st1 := if sn = templateSheetName ∧ dataRows ≠ [] then
           { st with templateArticles := (unionKeys st.templateArticles
               (extractArticlesFromRows (headerCells cfg baseRows) dataRows)) }
         else st
       let written := keyStage cfg (headerCells cfg baseRows)
         st1.templateArticles dataRows
       if written ≠ [] then
         { st1 with
             writer := st1.writer.writeRows sn st1.currentRow written,
             currentRow := st1.currentRow + (written.length : Int),
             rowsMerged := st1.rowsMerged + written.length }
       else st1) := by
  unfold processFileBody
  unfold fileReadResult at h
  cases hfs : fs path with
  | none => rw [hfs] at h; cases h
  | some wb =>
    rw [hfs] at h
    by_cases hex : sheetExists wb sn = true
    · simp only [hex, if_true] at h ⊢
      rw [h]
    · simp [hex] at h

theorem processFileBody_preserves (fs : FileSystem) (sn : String)
    (cfg : SheetConfig) (baseRows : List Row) (st : SheetMergeState)
    (path : String) :
    (processFileBody fs sn cfg baseRows st path).currentOp = st.currentOp ∧
    (processFileBody fs sn cfg baseRows st path).progress = st.progress ∧
    (processFileBody fs sn cfg baseRows st path).ops = st.ops := by
  cases h : fileReadResult fs sn cfg path with
  | none =>
    rw [processFileBody_failure fs sn cfg baseRows st path h]
    exact ⟨rfl, rfl, rfl⟩
  | some rows0 =>
    rw [processFileBody_success fs sn cfg baseRows st path rows0 h]
    dsimp only
    split <;> split <;> exact ⟨rfl, rfl, rfl⟩

theorem processFileBody_warnings (fs : FileSystem) (sn : String)
    (cfg : SheetConfig) (baseRows : List Row) (st : SheetMergeState)
    (path : String) :
    (processFileBody fs sn cfg baseRows st path).warnings =
      st.warnings ++ fileWarnings fs sn cfg path := by
  cases h : fileReadResult fs sn cfg path with
  | none => rw [processFileBody_failure fs sn cfg baseRows st path h]
  | some rows0 =>
    rw [processFileBody_success fs sn cfg baseRows st path rows0 h,
      fileWarnings_of_success fs sn cfg path rows0 h, List.append_nil]
    dsimp only
    split <;> split <;> rfl

theorem processFileBody_articles_other (fs : FileSystem) (sn : String)
    (cfg : SheetConfig) (baseRows : List Row) (st : SheetMergeState)
    (path : String) (ht : sn ≠ templateSheetName) :
    (processFileBody fs sn cfg baseRows st path).templateArticles =
      st.templateArticles := by
  cases h : fileReadResult fs sn cfg path with
  | none => rw [processFileBody_failure fs sn cfg baseRows st path h]
  | some rows0 =>
    rw [processFileBody_success fs sn cfg baseRows st path rows0 h]
    dsimp only
    have hcond : ¬(sn = templateSheetName ∧ colPipeline cfg rows0 ≠ []) :=
      fun hcc => ht hcc.1
    rw [if_neg hcond]
    split <;> rfl

theorem processFileBody_articles_template (fs : FileSystem)
    (cfg : SheetConfig) (baseRows : List Row) (st : SheetMergeState)
    (path : String) :
    (processFileBody fs templateSheetName cfg baseRows st path).templateArticles =
      unionKeys st.templateArticles
        (extractArticlesFromRows (headerCells cfg baseRows)
          (fileContribRows fs templateSheetName cfg path)) := by
  cases h : fileReadResult fs templateSheetName cfg path with
  | none =>
    rw [processFileBody_failure fs templateSheetName cfg baseRows st path h]
    simp [fileContribRows, h, extractArticlesFromRows_nil, unionKeys_nil]
  | some rows0 =>
    rw [processFileBody_success fs templateSheetName cfg baseRows st path rows0 h]
    dsimp only
    have hc : fileContribRows fs templateSheetName cfg path =
        colPipeline cfg rows0 := by
      simp [fileContribRows, h]
    rw [hc]
    by_cases hd : colPipeline cfg rows0 ≠ []
    · have hcond : templateSheetName = templateSheetName ∧
          colPipeline cfg rows0 ≠ [] := ⟨rfl, hd⟩
      rw [if_pos hcond]
      split <;> rfl
    · have hcond : ¬(templateSheetName = templateSheetName ∧
          colPipeline cfg rows0 ≠ []) := fun hcc => hd hcc.2
      rw [if_neg hcond]
      push_neg at hd
      rw [hd, extractArticlesFromRows_nil, unionKeys_nil]
      split <;> rfl

theorem processFileBody_nokey (fs : FileSystem) (sn : String)
    (cfg : SheetConfig) (baseRows : List Row) (st : SheetMergeState)
    (path : String) (hk : cfg.useTemplateArticles = false)
    (ht : sn ≠ templateSheetName) :
    processFileBody fs sn cfg baseRows st path =
      { st with
          warnings := st.warnings ++ fileWarnings fs sn cfg path,
          writer := st.writer.writeRows sn st.currentRow
            (fileContribRows fs sn cfg path),
          currentRow := st.currentRow +
            ((fileContribRows fs sn cfg path).length : Int),
          rowsMerged := st.rowsMerged + (fileContribRows fs sn cfg path).length } := by
  cases h : fileReadResult fs sn cfg path with
  | none =>
    rw [processFileBody_failure fs sn cfg baseRows st path h]
    have hc : fileContribRows fs sn cfg path = [] := by
      simp [fileContribRows, h]
    rw [hc, Writer.writeRows_nil]
    cases st
    simp
  | some rows0 =>
    rw [processFileBody_success fs sn cfg baseRows st path rows0 h,
      fileWarnings_of_success fs sn cfg path rows0 h, List.append_nil]
    have hc : fileContribRows fs sn cfg path = colPipeline cfg rows0 := by
      simp [fileContribRows, h]
    rw [hc]
    dsimp only
    have hcond : ¬(sn = templateSheetName ∧ colPipeline cfg rows0 ≠ []) :=
      fun hcc => ht hcc.1
    rw [if_neg hcond]
    have hks : keyStage cfg (headerCells cfg baseRows) st.templateArticles
        (colPipeline cfg rows0) = colPipeline cfg rows0 := by
      unfold keyStage
      have hkc : ¬(cfg.useTemplateArticles = true ∧ st.templateArticles ≠ [] ∧
          colPipeline cfg rows0 ≠ []) := by
        intro hcc
        rw [hk] at hcc
        exact Bool.false_ne_true hcc.1
      rw [if_neg hkc]
    rw [hks]
    by_cases hw : colPipeline cfg rows0 ≠ []
    · rw [if_pos hw]
    · rw [if_neg hw]
      push_neg at hw
      rw [hw, Writer.writeRows_nil]
      cases st
      simp

/-! ## Loop lemmas for the per-sheet file iteration -/

theorem processFile_currentOp (fs : FileSystem) (sn : String)
    (cfg : SheetConfig) (baseRows : List Row) (totalOps numFiles idx : Nat)
    (st : SheetMergeState) (path : String) :
    (processFile fs sn cfg baseRows totalOps numFiles idx st path).currentOp =
      st.currentOp + 1 :=
  (processFileBody_preserves fs sn cfg baseRows _ path).1

theorem processFile_progress (fs : FileSystem) (sn : String)
    (cfg : SheetConfig) (baseRows : List Row) (totalOps numFiles idx : Nat)
    (st : SheetMergeState) (path : String) :
    (processFile fs sn cfg baseRows totalOps numFiles idx st path).progress =
      st.progress ++ [⟨st.currentOp + 1, totalOps,
        progressMsg path sn idx numFiles⟩] :=
  (processFileBody_preserves fs sn cfg baseRows _ path).2.1

theorem processFile_ops (fs : FileSystem) (sn : String)
    (cfg : SheetConfig) (baseRows : List Row) (totalOps numFiles idx : Nat)
    (st : SheetMergeState) (path : String) :
    (processFile fs sn cfg baseRows totalOps numFiles idx st path).ops =
      st.ops ++ [(path, sn)] :=
  (processFileBody_preserves fs sn cfg baseRows _ path).2.2

theorem processFile_warnings (fs : FileSystem) (sn : String)
    (cfg : SheetConfig) (baseRows : List Row) (totalOps numFiles idx : Nat)
    (st : SheetMergeState) (path : String) :
    (processFile fs sn cfg baseRows totalOps numFiles idx st path).warnings =
      st.warnings ++ fileWarnings fs sn cfg path :=
  processFileBody_warnings fs sn cfg baseRows _ path

/-- Shape of the file loop: one progress update and one visited pair per file,
the operation counter advanced once per file, and the warnings extended by
exactly each file's warning list. -/
theorem processFiles_shape (fs : FileSystem) (sn : String) (cfg : SheetConfig)
    (baseRows : List Row) (totalOps numFiles : Nat) :
    ∀ (l : List String) (idx : Nat) (st : SheetMergeState),
      (processFiles fs sn cfg baseRows totalOps numFiles idx st l).currentOp =
          st.currentOp + l.length ∧
      (processFiles fs sn cfg baseRows totalOps numFiles idx st l).ops =
          st.ops ++ l.map (fun p => (p, sn)) ∧
      (processFiles fs sn cfg baseRows totalOps numFiles idx st l).warnings =
          st.warnings ++ l.flatMap (fun p => fileWarnings fs sn cfg p) ∧
      (processFiles fs sn cfg baseRows totalOps numFiles idx st l).progress.length =
          st.progress.length + l.length ∧
      (∀ u ∈ (processFiles fs sn cfg baseRows totalOps numFiles idx st l).progress,
          u ∈ st.progress ∨ u.total = totalOps) := by
  intro l
  induction l with
  | nil =>
    intro idx st
    refine ⟨rfl, by simp [processFiles], by simp [processFiles],
      by simp [processFiles], ?_⟩
    intro u hu
    exact Or.inl hu
  | cons p rest ih =>
    intro idx st
    have hrec := ih (idx + 1)
      (processFile fs sn cfg baseRows totalOps numFiles idx st p)
    obtain ⟨h1, h2, h3, h4, h5⟩ := hrec
    refine ⟨?_, ?_, ?_, ?_, ?_⟩
    · rw [show processFiles fs sn cfg baseRows totalOps numFiles idx st
          (p :: rest) = processFiles fs sn cfg baseRows totalOps numFiles
          (idx + 1) (processFile fs sn cfg baseRows totalOps numFiles idx st p)
          rest from rfl, h1, processFile_currentOp]
      simp [Nat.add_assoc, Nat.add_comm 1 rest.length]
    · rw [show processFiles fs sn cfg baseRows totalOps numFiles idx st
          (p :: rest) = processFiles fs sn cfg baseRows totalOps numFiles
          (idx + 1) (processFile fs sn cfg baseRows totalOps numFiles idx st p)
          rest from rfl, h2, processFile_ops]
      simp
    · rw [show processFiles fs sn cfg baseRows totalOps numFiles idx st
          (p :: rest) = processFiles fs sn cfg baseRows totalOps numFiles
          (idx + 1) (processFile fs sn cfg baseRows totalOps numFiles idx st p)
          rest from rfl, h3, processFile_warnings]
      simp
    · rw [show processFiles fs sn cfg baseRows totalOps numFiles idx st
          (p :: rest) = processFiles fs sn cfg baseRows totalOps numFiles
          (idx + 1) (processFile fs sn cfg baseRows totalOps numFiles idx st p)
          rest from rfl, h4, processFile_progress]
      simp [Nat.add_assoc, Nat.add_comm 1 rest.length]
    · intro u hu
      rw [show processFiles fs sn cfg baseRows totalOps numFiles idx st
          (p :: rest) = processFiles fs sn cfg baseRows totalOps numFiles
          (idx + 1) (processFile fs sn cfg baseRows totalOps numFiles idx st p)
          rest from rfl] at hu
      rcases h5 u hu with hmem | htot
      · rw [processFile_progress] at hmem
        rcases List.mem_append.mp hmem with hl | hr
        · exact Or.inl hl
        · right
          rcases List.mem_singleton.mp hr with rfl
          rfl
      · exact Or.inr htot

/-- On a non-template sheet the file loop never touches the key set. -/
theorem processFiles_articles_other (fs : FileSystem) (sn : String)
    (cfg : SheetConfig) (baseRows : List Row) (totalOps numFiles : Nat)
    (ht : sn ≠ templateSheetName) :
    ∀ (l : List String) (idx : Nat) (st : SheetMergeState),
      (processFiles fs sn cfg baseRows totalOps numFiles idx st l).templateArticles =
        st.templateArticles := by
  intro l
  induction l with
  | nil => intro idx st; rfl
  | cons p rest ih =>
    intro idx st
    have hstep : (processFile fs sn cfg baseRows totalOps numFiles idx st
        p).templateArticles = st.templateArticles :=
      processFileBody_articles_other fs sn cfg baseRows _ p ht
    calc (processFiles fs sn cfg baseRows totalOps numFiles idx st
          (p :: rest)).templateArticles
        = (processFiles fs sn cfg baseRows totalOps numFiles (idx + 1)
            (processFile fs sn cfg baseRows totalOps numFiles idx st p)
            rest).templateArticles := rfl
      _ = st.templateArticles := by rw [ih, hstep]

/-- On the template sheet the key set accumulates, as a union, each file's
extracted keys. -/
theorem processFiles_articles_template (fs : FileSystem) (cfg : SheetConfig)
    (baseRows : List Row) (totalOps numFiles : Nat) :
    ∀ (l : List String) (idx : Nat) (st : SheetMergeState) (a : String),
      (a ∈ (processFiles fs templateSheetName cfg baseRows totalOps numFiles
          idx st l).templateArticles ↔
        a ∈ st.templateArticles ∨ ∃ p ∈ l,
          a ∈ extractArticlesFromRows (headerCells cfg baseRows)
            (fileContribRows fs templateSheetName cfg p)) := by
  intro l
  induction l with
  | nil => intro idx st a; simp [processFiles]
  | cons p rest ih =>
    intro idx st a
    have hstep : (processFile fs templateSheetName cfg baseRows totalOps
        numFiles idx st p).templateArticles =
          unionKeys st.templateArticles
            (extractArticlesFromRows (headerCells cfg baseRows)
              (fileContribRows fs templateSheetName cfg p)) :=
      processFileBody_articles_template fs cfg baseRows _ p
    have hrec := ih (idx + 1)
      (processFile fs templateSheetName cfg baseRows totalOps numFiles idx st p) a
    calc a ∈ (processFiles fs templateSheetName cfg baseRows totalOps numFiles
          idx st (p :: rest)).templateArticles
        ↔ a ∈ (processFiles fs templateSheetName cfg baseRows totalOps numFiles
            (idx + 1) (processFile fs templateSheetName cfg baseRows totalOps
              numFiles idx st p) rest).templateArticles := Iff.rfl
      _ ↔ _ := by
          rw [hrec, hstep, mem_unionKeys]
          simp only [List.mem_cons]
          constructor
          · rintro ((ha | ha) | ⟨q, hq, ha⟩)
            · exact Or.inl ha
            · exact Or.inr ⟨p, Or.inl rfl, ha⟩
            · exact Or.inr ⟨q, Or.inr hq, ha⟩
          · rintro (ha | ⟨q, (rfl | hq), ha⟩)
            · exact Or.inl (Or.inl ha)
            · exact Or.inl (Or.inr ha)
            · exact Or.inr ⟨q, hq, ha⟩

/-! ## Run-level lemmas -/

theorem mergeSheetWithWriter_eq (fs : FileSystem) (writer : Writer)
    (sn : String) (cfg : SheetConfig) (b : String) (files : List String)
    (currentOp : Nat) (progress : List ProgressUpdate)
    (ops : List (String × String)) (arts : List String) (totalOps : Nat)
    (baseWb : Workbook) (baseRows : List Row)
    (hfs : fs b = some baseWb) (hex : sheetExists baseWb sn = true)
    (hrows : getRows baseWb sn = some baseRows) :
    mergeSheetWithWriter fs writer sn cfg b files currentOp progress ops arts
        totalOps =
      .ok (processFiles fs sn cfg baseRows totalOps (b :: files).length 0
        ⟨(if cfg.headerRow > 0 ∧ (baseRows.length : Int) ≥ cfg.headerRow
          then (writer.createSheet sn).writeRows sn 1
            (baseRows.take cfg.headerRow.toNat)
          else writer.createSheet sn), [], currentOp, progress, ops, arts,
          cfg.headerRow + 1, 0⟩
        (b :: files)) := by
  unfold mergeSheetWithWriter
  rw [hfs]
  dsimp only
  rw [if_pos hex, hrows]

theorem mergeSheetWithWriter_ok_elim (fs : FileSystem) (writer : Writer)
    (sn : String) (cfg : SheetConfig) (b : String) (files : List String)
    (currentOp : Nat) (progress : List ProgressUpdate)
    (ops : List (String × String)) (arts : List String) (totalOps : Nat)
    (st : SheetMergeState)
    (h : mergeSheetWithWriter fs writer sn cfg b files currentOp progress ops
        arts totalOps = .ok st) :
    ∃ baseWb baseRows,
      fs b = some baseWb ∧ sheetExists baseWb sn = true ∧
      getRows baseWb sn = some baseRows ∧
      st = processFiles fs sn cfg baseRows totalOps (b :: files).length 0
        ⟨(if cfg.headerRow > 0 ∧ (baseRows.length : Int) ≥ cfg.headerRow
          then (writer.createSheet sn).writeRows sn 1
            (baseRows.take cfg.headerRow.toNat)
          else writer.createSheet sn), [], currentOp, progress, ops, arts,
          cfg.headerRow + 1, 0⟩
        (b :: files) := by
  unfold mergeSheetWithWriter at h
  cases hfs : fs b with
  | none => rw [hfs] at h; cases h
  | some baseWb =>
    rw [hfs] at h
    dsimp only at h
    by_cases hex : sheetExists baseWb sn = true
    · rw [if_pos hex] at h
      cases hrows : getRows baseWb sn with
      | none => rw [hrows] at h; cases h
      | some baseRows =>
        rw [hrows] at h
        exact ⟨baseWb, baseRows, rfl, hex, hrows, (Except.ok.inj h).symm⟩
    · rw [if_neg hex] at h
      cases h

theorem runSheet_ok_elim (fs : FileSystem) (b : String) (files : List String)
    (totalFiles totalOps : Nat) (rs rs' : RunState) (sn : String)
    (cfg : SheetConfig)
    (h : runSheet fs b files totalFiles totalOps rs sn cfg = .ok rs') :
    ∃ st, mergeSheetWithWriter fs rs.writer sn cfg b files rs.currentOp
        rs.progress rs.ops rs.templateArticles totalOps = .ok st ∧
      rs' = { writer := st.writer, currentOp := st.currentOp,
              progress := st.progress, ops := st.ops,
              templateArticles := st.templateArticles,
              processedSheets := rs.processedSheets + 1,
              totalRows := rs.totalRows + st.rowsMerged,
              sheetStats := rs.sheetStats ++
                [(sn, ⟨st.rowsMerged, totalFiles⟩)],
              warnings := rs.warnings ++ st.warnings } := by
  unfold runSheet at h
  cases hm : mergeSheetWithWriter fs rs.writer sn cfg b files rs.currentOp
      rs.progress rs.ops rs.templateArticles totalOps with
  | error e => rw [hm] at h; cases h
  | ok st => rw [hm] at h; exact ⟨st, rfl, (Except.ok.inj h).symm⟩

/-- Everything a successful `runSheet` adds to the run state: `1 + |files|`
progress updates carrying `totalOps`, one visited pair per file for this sheet,
one processed sheet and one statistics entry carrying `totalFiles`. -/
theorem runSheet_ok_shape (fs : FileSystem) (b : String) (files : List String)
    (totalFiles totalOps : Nat) (rs rs' : RunState) (sn : String)
    (cfg : SheetConfig)
    (h : runSheet fs b files totalFiles totalOps rs sn cfg = .ok rs') :
    rs'.progress.length = rs.progress.length + (1 + files.length) ∧
    (∀ u ∈ rs'.progress, u ∈ rs.progress ∨ u.total = totalOps) ∧
    rs'.ops = rs.ops ++ (b :: files).map (fun f => (f, sn)) ∧
    rs'.processedSheets = rs.processedSheets + 1 ∧
    (∃ n, rs'.sheetStats = rs.sheetStats ++ [(sn, ⟨n, totalFiles⟩)]) := by
  obtain ⟨st, hm, hrs⟩ := runSheet_ok_elim fs b files totalFiles totalOps rs
    rs' sn cfg h
  obtain ⟨baseWb, baseRows, hfs, hex, hrows, hst⟩ :=
    mergeSheetWithWriter_ok_elim fs rs.writer sn cfg b files rs.currentOp
      rs.progress rs.ops rs.templateArticles totalOps st hm
  obtain ⟨h1, h2, h3, h4, h5⟩ := processFiles_shape fs sn cfg baseRows totalOps
    (b :: files).length (b :: files) 0
    ⟨(if cfg.headerRow > 0 ∧ (baseRows.length : Int) ≥ cfg.headerRow
      then ((rs.writer.createSheet sn)).writeRows sn 1
        (baseRows.take cfg.headerRow.toNat)
      else rs.writer.createSheet sn), [], rs.currentOp, rs.progress, rs.ops,
      rs.templateArticles, cfg.headerRow + 1, 0⟩
  rw [← hst] at h1 h2 h3 h4 h5
  subst hrs
  refine ⟨?_, ?_, ?_, rfl, ⟨st.rowsMerged, rfl⟩⟩
  · simpa [List.length_cons, Nat.add_comm] using h4
  · exact h5
  · simpa using h2

theorem sheetsFold_error (fs : FileSystem) (b : String) (files : List String)
    (totalFiles totalOps : Nat) (e : String)
    (l : List (String × SheetConfig)) :
    sheetsFold fs b files totalFiles totalOps (.error e) l = .error e := by
  induction l with
  | nil => rfl
  | cons p rest ih => exact ih

theorem sheetsFold_cons_ok (fs : FileSystem) (b : String) (files : List String)
    (totalFiles totalOps : Nat) (rs : RunState)
    (p : String × SheetConfig) (l : List (String × SheetConfig)) :
    sheetsFold fs b files totalFiles totalOps (.ok rs) (p :: l) =
      sheetsFold fs b files totalFiles totalOps
        (if p.1 = templateSheetName then .ok rs
         else if p.2.enabled then
           runSheet fs b files totalFiles totalOps rs p.1 p.2
         else .ok rs) l := rfl

/-- The non-template sheets that the main loop actually processes. -/
def otherEnabled (l : List (String × SheetConfig)) :
    List (String × SheetConfig) :=
  l.filter (fun p => !(p.1 == templateSheetName) && p.2.enabled)

/-- Everything a successful pass of the main sheet loop adds: `totalFiles`
progress updates per processed sheet, all carrying `totalOps`; visited pairs
only for non-template sheets; statistics entries all carrying `totalFiles`. -/
theorem sheetsFold_ok_shape (fs : FileSystem) (b : String)
    (files : List String) (totalFiles totalOps : Nat) :
    ∀ (l : List (String × SheetConfig)) (rs rs' : RunState),
      sheetsFold fs b files totalFiles totalOps (.ok rs) l = .ok rs' →
      (rs'.progress.length = rs.progress.length +
          (otherEnabled l).length * (1 + files.length) ∧
       (∀ u ∈ rs'.progress, u ∈ rs.progress ∨ u.total = totalOps) ∧
       (∃ tail, rs'.ops = rs.ops ++ tail ∧
          ∀ op ∈ tail, op.2 ≠ templateSheetName) ∧
       rs'.processedSheets = rs.processedSheets + (otherEnabled l).length ∧
       ((∀ q ∈ rs.sheetStats, q.2.filesCount = totalFiles) →
          ∀ q ∈ rs'.sheetStats, q.2.filesCount = totalFiles)) := by
  intro l
  induction l with
  | nil =>
    intro rs rs' h
    cases h
    exact ⟨by simp [otherEnabled], fun u hu => Or.inl hu, ⟨[], by simp, by simp⟩,
      by simp [otherEnabled], fun hinv => hinv⟩
  | cons p rest ih =>
    intro rs rs' h
    rw [sheetsFold_cons_ok] at h
    by_cases h1 : p.1 = templateSheetName
    · rw [if_pos h1] at h
      have hfil : otherEnabled (p :: rest) = otherEnabled rest := by
        simp [otherEnabled, List.filter_cons, h1]
      rw [hfil]
      exact ih rs rs' h
    · rw [if_neg h1] at h
      by_cases h2 : p.2.enabled
      · rw [if_pos h2] at h
        cases hr : runSheet fs b files totalFiles totalOps rs p.1 p.2 with
        | error e =>
          rw [hr, sheetsFold_error] at h
          cases h
        | ok rs1 =>
          rw [hr] at h
          obtain ⟨g1, g2, g3, g4, g5⟩ := ih rs1 rs' h
          obtain ⟨s1, s2, s3, s4, s5⟩ := runSheet_ok_shape fs b files
            totalFiles totalOps rs rs1 p.1 p.2 hr
          have hfil : otherEnabled (p :: rest) = p :: otherEnabled rest := by
            have hb : (!(p.1 == templateSheetName) && p.2.enabled) = true := by
              simp [h1, h2]
            simp [otherEnabled, List.filter_cons, hb]
          rw [hfil]
          refine ⟨?_, ?_, ?_, ?_, ?_⟩
          · rw [g1, s1, List.length_cons]
            ring
          · intro u hu
            rcases g2 u hu with hm | ht
            · rcases s2 u hm with hm2 | ht2
              · exact Or.inl hm2
              · exact Or.inr ht2
            · exact Or.inr ht
          · obtain ⟨tail2, htail2, hall2⟩ := g3
            refine ⟨(b :: files).map (fun f => (f, p.1)) ++ tail2, ?_, ?_⟩
            · rw [htail2, s3, List.append_assoc]
            · intro op hop
              rcases List.mem_append.mp hop with hop1 | hop2
              · obtain ⟨f, _, rfl⟩ := List.mem_map.mp hop1
                exact h1
              · exact hall2 op hop2
          · rw [g4, s4, List.length_cons]
            ring
          · intro hinv
            refine g5 ?_
            obtain ⟨n, hn⟩ := s5
            rw [hn]
            intro q hq
            rcases List.mem_append.mp hq with hq1 | hq2
            · exact hinv q hq1
            · rcases List.mem_singleton.mp hq2 with rfl
              rfl
      · rw [if_neg h2] at h
        have hfil : otherEnabled (p :: rest) = otherEnabled rest := by
          have hb : (!(p.1 == templateSheetName) && p.2.enabled) = false := by
            simp [h2]
          simp [otherEnabled, List.filter_cons, hb]
        rw [hfil]
        exact ih rs rs' h

theorem lookup_mem {α β : Type} [BEq α] [LawfulBEq α] (l : List (α × β))
    (a : α) (v : β) (h : l.lookup a = some v) : (a, v) ∈ l := by
  induction l with
  | nil => cases h
  | cons p rest ih =>
    rcases p with ⟨k, w⟩
    rw [List.lookup_cons] at h
    by_cases he : (a == k) = true
    · rw [he] at h
      have hak : a = k := eq_of_beq he
      subst hak
      cases h
      exact List.mem_cons_self _ _
    · rw [Bool.not_eq_true] at he
      rw [he] at h
      exact List.mem_cons_of_mem _ (ih h)

theorem sheetsFold_all_disabled (fs : FileSystem) (b : String)
    (files : List String) (totalFiles totalOps : Nat) :
    ∀ (l : List (String × SheetConfig)) (rs : RunState),
      (∀ p ∈ l, p.2.enabled = false) →
      sheetsFold fs b files totalFiles totalOps (.ok rs) l = .ok rs := by
  intro l
  induction l with
  | nil => intro rs _; rfl
  | cons p rest ih =>
    intro rs hall
    rw [sheetsFold_cons_ok]
    by_cases h1 : p.1 = templateSheetName
    · rw [if_pos h1]
      exact ih rs (fun q hq => hall q (List.mem_cons_of_mem _ hq))
    · rw [if_neg h1]
      have hd : p.2.enabled = false := hall p (List.mem_cons_self _ _)
      rw [if_neg (by simp [hd])]
      exact ih rs (fun q hq => hall q (List.mem_cons_of_mem _ hq))

theorem mergeBody_ok_elim (fs : FileSystem) (b : String) (files : List String)
    (cfgs : List (String × SheetConfig)) (tF tOps : Nat) (rs' : RunState)
    (h : mergeBody fs b files cfgs tF tOps = .ok rs') :
    (∃ tc, cfgs.lookup templateSheetName = some tc ∧ tc.enabled = true ∧
       ∃ rs1, runSheet fs b files tF tOps initialRunState templateSheetName tc
           = .ok rs1 ∧
         sheetsFold fs b files tF tOps (.ok rs1) cfgs = .ok rs') ∨
    ((cfgs.lookup templateSheetName = none ∨
        ∃ tc, cfgs.lookup templateSheetName = some tc ∧ tc.enabled = false) ∧
      sheetsFold fs b files tF tOps (.ok initialRunState) cfgs = .ok rs') := by
  unfold mergeBody at h
  cases hl : cfgs.lookup templateSheetName with
  | none =>
    rw [hl] at h
    exact Or.inr ⟨Or.inl rfl, h⟩
  | some tc =>
    rw [hl] at h
    dsimp only at h
    by_cases he : tc.enabled = true
    · rw [if_pos he] at h
      cases hr : runSheet fs b files tF tOps initialRunState templateSheetName
          tc with
      | error e => rw [hr, sheetsFold_error] at h; cases h
      | ok rs1 => rw [hr] at h; exact Or.inl ⟨tc, rfl, he, rs1, hr, h⟩
    · rw [if_neg he] at h
      exact Or.inr ⟨Or.inr ⟨tc, rfl, by simpa using he⟩, h⟩

theorem MergeFiles_ok_elim (fs : FileSystem) (b : String)
    (files : List String) (cfgs : List (String × SheetConfig))
    (out : MergeOutput) (h : MergeFiles fs b files cfgs = .ok out) :
    b ≠ "" ∧ cfgs ≠ [] ∧
    ∃ rs, mergeBody fs b files cfgs (1 + files.length)
        (cfgs.length * (1 + files.length)) = .ok rs ∧
      out = buildOutput (1 + files.length) rs := by
  unfold MergeFiles at h
  by_cases hb : b = ""
  · rw [if_pos hb] at h; cases h
  rw [if_neg hb] at h
  by_cases hc : cfgs = []
  · rw [if_pos hc] at h; cases h
  rw [if_neg hc] at h
  dsimp only at h
  cases hm : mergeBody fs b files cfgs (1 + files.length)
      (cfgs.length * (1 + files.length)) with
  | error e =>
    rw [hm] at h
    simp [Except.map] at h
  | ok rs =>
    rw [hm] at h
    simp only [Except.map] at h
    exact ⟨hb, hc, rs, rfl, (Except.ok.inj h).symm⟩

/-! ## Claim C10: per-sheet `filesCount` and `processedFiles` -/

/-- C10: in every successfully returned merge result, every per-sheet
statistics entry carries `filesCount = 1 + |additionalFiles|`, and
`processedFiles` equals the same value, regardless of which files actually
contributed rows. -/
theorem C10_filesCount_invariant (fs : FileSystem) (b : String)
    (files : List String) (cfgs : List (String × SheetConfig))
    (out : MergeOutput) (h : MergeFiles fs b files cfgs = .ok out) :
    (∀ q ∈ out.result.sheetStats, q.2.filesCount = 1 + files.length) ∧
    out.result.processedFiles = 1 + files.length := by
  obtain ⟨hb, hc, rs, hm, hout⟩ := MergeFiles_ok_elim fs b files cfgs out h
  subst hout
  refine ⟨?_, rfl⟩
  intro q hq
  rcases mergeBody_ok_elim fs b files cfgs (1 + files.length)
      (cfgs.length * (1 + files.length)) rs hm with
    ⟨tc, hl, he, rs1, hr, hf⟩ | ⟨_, hf⟩
  · obtain ⟨_, _, _, _, n, hn⟩ := runSheet_ok_shape fs b files
      (1 + files.length) (cfgs.length * (1 + files.length))
      initialRunState rs1 templateSheetName tc hr
    have hinv1 : ∀ q ∈ rs1.sheetStats, q.2.filesCount = 1 + files.length := by
      rw [hn]
      intro q hq
      simp only [initialRunState, List.nil_append] at hq
      rcases List.mem_singleton.mp hq with rfl
      rfl
    exact (sheetsFold_ok_shape fs b files (1 + files.length)
      (cfgs.length * (1 + files.length)) cfgs rs1 rs hf).2.2.2.2 hinv1 q hq
  · have hinv0 : ∀ q ∈ initialRunState.sheetStats,
        q.2.filesCount = 1 + files.length := by
      intro q hq
      simp [initialRunState] at hq
    exact (sheetsFold_ok_shape fs b files (1 + files.length)
      (cfgs.length * (1 + files.length)) cfgs initialRunState rs hf).2.2.2.2
      hinv0 q hq

/-- A one-sheet, one-file scenario used to witness the run-level theorems. -/
def c10fs : FileSystem :=
  fun p => if p = "b.xlsx" then some ⟨[("A", some [["h"], ["x"]])]⟩ else none

def c10cfgs : List (String × SheetConfig) :=
  [("A", ⟨true, 1, -1, [], false⟩)]

def emptyOutput : MergeOutput :=
  ⟨⟨0, 0, 0, [], []⟩, ⟨[]⟩, [], [], []⟩

def c10out : MergeOutput :=
  ((MergeFiles c10fs "b.xlsx" [] c10cfgs).toOption).getD emptyOutput

/-- Witness for C10 on a concrete one-sheet run. -/
theorem C10_witness :
    (∀ q ∈ c10out.result.sheetStats,
        q.2.filesCount = 1 + ([] : List String).length) ∧
    c10out.result.processedFiles = 1 + ([] : List String).length :=
  C10_filesCount_invariant c10fs "b.xlsx" [] c10cfgs c10out (by rfl)

/-! ## Claim C8: the template sheet is processed first -/

/-- C8: when a run's configuration contains an enabled `"Шаблон"` entry, the
visited `(file, sheet)` trace starts with all of that template sheet's file
visits — in base-then-additional order — and no later visit touches the
template sheet: every other sheet's processing begins only after the template
merge completed. -/
theorem C8_template_processed_first (fs : FileSystem) (b : String)
    (files : List String) (cfgs : List (String × SheetConfig))
    (tc : SheetConfig) (out : MergeOutput)
    (hl : cfgs.lookup templateSheetName = some tc) (he : tc.enabled = true)
    (h : MergeFiles fs b files cfgs = .ok out) :
    ∃ tail, out.ops =
        (b :: files).map (fun f => (f, templateSheetName)) ++ tail ∧
      ∀ op ∈ tail, op.2 ≠ templateSheetName := by
  obtain ⟨hb, hc, rs, hm, hout⟩ := MergeFiles_ok_elim fs b files cfgs out h
  subst hout
  rcases mergeBody_ok_elim fs b files cfgs (1 + files.length)
      (cfgs.length * (1 + files.length)) rs hm with
    ⟨tc2, hl2, he2, rs1, hr, hf⟩ | ⟨hcase, hf⟩
  · obtain ⟨_, _, s3, _, _⟩ := runSheet_ok_shape fs b files (1 + files.length)
      (cfgs.length * (1 + files.length)) initialRunState rs1 templateSheetName
      tc2 hr
    obtain ⟨tail, htail, hall⟩ := (sheetsFold_ok_shape fs b files
      (1 + files.length) (cfgs.length * (1 + files.length)) cfgs rs1 rs
      hf).2.2.1
    refine ⟨tail, ?_, hall⟩
    show rs.ops = _
    rw [htail, s3]
    simp [initialRunState]
  · exfalso
    rcases hcase with hnone | ⟨tc3, hl3, he3⟩
    · rw [hl] at hnone; cases hnone
    · rw [hl] at hl3
      cases Option.some.inj hl3
      rw [he] at he3
      cases he3

/-- A template-plus-dependent-sheet scenario used for witnesses. -/
def c8fs : FileSystem :=
  fun p => if p = "b.xlsx" then
    some ⟨[("Шаблон", some [["Артикул"], ["a1"], [""]]),
           ("D", some [["Артикул озон"], ["a1"], ["zz"]])]⟩
  else none

def c8tc : SheetConfig := ⟨true, 1, -1, [], false⟩

def c8cfgs : List (String × SheetConfig) :=
  [("Шаблон", c8tc), ("D", ⟨true, 1, -1, [], true⟩)]

def c8out : MergeOutput :=
  ((MergeFiles c8fs "b.xlsx" [] c8cfgs).toOption).getD emptyOutput

/-- Witness for C8 on a concrete template-first run. -/
theorem C8_witness :
    ∃ tail, c8out.ops =
        (["b.xlsx"] : List String).map (fun f => (f, templateSheetName)) ++
          tail ∧
      ∀ op ∈ tail, op.2 ≠ templateSheetName :=
  C8_template_processed_first c8fs "b.xlsx" [] c8cfgs c8tc c8out (by rfl)
    (by rfl) (by rfl)

/-! ## Claim C2: fail-fast conditions -/

def c2cfgs : List (String × SheetConfig) :=
  [("S", ⟨false, 1, -1, [], false⟩)]

/-- Counterexample to C2 as stated: a non-empty config map whose only entry is
disabled contains no enabled entry, yet `MergeFiles` succeeds (with an empty
result) instead of returning an error. -/
theorem C2_counterexample :
    (∀ p ∈ c2cfgs, p.2.enabled = false) ∧
    ((MergeFiles (fun _ => none) "b.xlsx" [] c2cfgs).toOption).isSome = true := by
  exact ⟨by decide, by rfl⟩

/-- C2 as amended: `MergeFiles` fails fast — producing an error and no partial
result — exactly when the base path is empty or the config map has zero
entries; a non-empty map all of whose entries are disabled instead yields a
successful empty `MergeResult` (nothing written, no sheet processed). -/
theorem C2_amended_fail_fast (fs : FileSystem) (b : String)
    (files : List String) (cfgs : List (String × SheetConfig)) :
    ((b = "" ∨ cfgs = []) → ∃ e, MergeFiles fs b files cfgs = .error e) ∧
    (b ≠ "" → cfgs ≠ [] → (∀ p ∈ cfgs, p.2.enabled = false) →
      ∃ out, MergeFiles fs b files cfgs = .ok out ∧
        out.result.processedSheets = 0 ∧ out.result.totalRows = 0 ∧
        out.result.sheetStats = [] ∧ out.writer = ⟨[]⟩ ∧
        out.progress = []) := by
  constructor
  · rintro (hb | hc)
    · exact ⟨"путь к базовому файлу не указан", by unfold MergeFiles; rw [if_pos hb]⟩
    · refine ⟨?_, ?_⟩
      · exact if b = "" then "путь к базовому файлу не указан"
          else "нет листов для обработки"
      · unfold MergeFiles
        by_cases hb : b = ""
        · rw [if_pos hb, if_pos hb]
        · rw [if_neg hb, if_neg hb, if_pos hc]
  · intro hb hc hall
    have hbody : mergeBody fs b files cfgs (1 + files.length)
        (cfgs.length * (1 + files.length)) = .ok initialRunState := by
      unfold mergeBody
      cases hl : cfgs.lookup templateSheetName with
      | none =>
        exact sheetsFold_all_disabled fs b files _ _ cfgs initialRunState hall
      | some tc =>
        dsimp only
        have htc : tc.enabled = false :=
          hall (templateSheetName, tc) (lookup_mem cfgs templateSheetName tc hl)
        rw [if_neg (by simp [htc])]
        exact sheetsFold_all_disabled fs b files _ _ cfgs initialRunState hall
    refine ⟨buildOutput (1 + files.length) initialRunState, ?_, rfl, rfl, rfl,
      rfl, rfl⟩
    unfold MergeFiles
    rw [if_neg hb, if_neg hc]
    dsimp only
    rw [hbody]
    rfl

/-- Witness for the amended C2: both branches exercised on concrete inputs. -/
theorem C2_witness :
    (∃ e, MergeFiles (fun _ => none) "" [] c2cfgs = .error e) ∧
    (∃ out, MergeFiles (fun _ => none) "b.xlsx" [] c2cfgs = .ok out ∧
      out.result.processedSheets = 0 ∧ out.result.totalRows = 0 ∧
      out.result.sheetStats = [] ∧ out.writer = ⟨[]⟩ ∧ out.progress = []) :=
  ⟨(C2_amended_fail_fast (fun _ => none) "" [] c2cfgs).1 (Or.inl rfl),
   (C2_amended_fail_fast (fun _ => none) "b.xlsx" [] c2cfgs).2 (by decide)
     (by decide) (by decide)⟩

/-! ## Claim C3: progress totals -/

/-- Number of enabled sheet configurations. -/
def enabledCount (cfgs : List (String × SheetConfig)) : Nat :=
  (cfgs.filter (fun p => p.2.enabled)).length

theorem otherEnabled_of_no_template (l : List (String × SheetConfig))
    (hnot : templateSheetName ∉ l.map Prod.fst) :
    otherEnabled l = l.filter (fun p => p.2.enabled) := by
  induction l with
  | nil => rfl
  | cons p rest ih =>
    have hp : p.1 ≠ templateSheetName := by
      intro hk
      exact hnot (by simp [← hk])
    have hrest : templateSheetName ∉ rest.map Prod.fst := by
      intro hk
      exact hnot (by simp [hk])
    have hb : (!(p.1 == templateSheetName)) = true := by
      simp
      exact fun hk => hp hk
    simp only [otherEnabled, List.filter_cons, hb, Bool.true_and] at ih ⊢
    rw [ih hrest]

/-- Splitting the enabled count into the template entry and the rest, for a
config map with distinct sheet names. -/
theorem enabledCount_split (cfgs : List (String × SheetConfig))
    (hnd : (cfgs.map Prod.fst).Nodup) :
    enabledCount cfgs =
      (otherEnabled cfgs).length +
        (match cfgs.lookup templateSheetName with
         | some tc => if tc.enabled then 1 else 0
         | none => 0) := by
  induction cfgs with
  | nil => rfl
  | cons p rest ih =>
    rcases p with ⟨k, c⟩
    have hnd2 : (k :: rest.map Prod.fst).Nodup := by simpa using hnd
    obtain ⟨hknotin, hndrest0⟩ := List.nodup_cons.mp hnd2
    have hndrest : (rest.map Prod.fst).Nodup := hndrest0
    by_cases h1 : k = templateSheetName
    · subst h1
      have hnotin : templateSheetName ∉ rest.map Prod.fst := hknotin
      have hoe : otherEnabled ((templateSheetName, c) :: rest) =
          otherEnabled rest := by
        simp [otherEnabled, List.filter_cons]
      have hoe2 : otherEnabled rest = rest.filter (fun p => p.2.enabled) :=
        otherEnabled_of_no_template rest hnotin
      have hlk : ((templateSheetName, c) :: rest).lookup templateSheetName =
          some c := by
        simp [List.lookup_cons]
      rw [hoe, hoe2, hlk]
      cases hc : c.enabled with
      | true =>
        simp only [enabledCount, List.filter_cons, hc, if_true]
        simp [enabledCount]
      | false =>
        simp only [enabledCount, List.filter_cons, hc, if_false]
        simp [enabledCount]
    · have hbe : (templateSheetName == k) = false :=
        beq_eq_false_iff_ne.mpr (fun hk => h1 hk.symm)
      have hlk : ((k, c) :: rest).lookup templateSheetName =
          rest.lookup templateSheetName := by
        simp [List.lookup_cons, hbe]
      have hoe : otherEnabled ((k, c) :: rest) =
          if c.enabled then (k, c) :: otherEnabled rest
          else otherEnabled rest := by
        have hb : (!(k == templateSheetName)) = true := by
          simp
          exact fun hk => h1 hk
        cases hc : c.enabled with
        | true => simp [otherEnabled, List.filter_cons, hb, hc]
        | false => simp [otherEnabled, List.filter_cons, hb, hc]
      rw [hlk, hoe]
      cases hc : c.enabled with
      | true =>
        simp only [enabledCount, List.filter_cons, hc, if_true]
        have := ih hndrest
        simp only [enabledCount] at this
        simp [this]
        omega
      | false =>
        simp only [enabledCount, List.filter_cons, hc, if_false]
        have := ih hndrest
        simp only [enabledCount] at this
        simp [this]

def c3fs : FileSystem :=
  fun p => if p = "b.xlsx" then some ⟨[("A", some [["h"], ["x"]])]⟩ else none

def c3cfgs : List (String × SheetConfig) :=
  [("A", ⟨true, 1, -1, [], false⟩), ("B", ⟨false, 1, -1, [], false⟩)]

/-- Counterexample to C3 as stated: with one enabled and one disabled sheet
config and no additional files, the emitted progress update carries
`total = 2` (config-entry count × files), not
`enabled-sheet-count × (1 + additional-file-count) = 1`. -/
theorem C3_counterexample :
    ((MergeFiles c3fs "b.xlsx" [] c3cfgs).map
        (fun o => o.progress.map ProgressUpdate.total)) = .ok [2] ∧
    enabledCount c3cfgs * (1 + ([] : List String).length) = 1 := by
  exact ⟨by rfl, by rfl⟩

/-- C3 as amended: the `total` carried by every emitted progress update equals
config-entry-count (enabled or not) × (1 + additional-file-count), and exactly
one update is emitted per (file, processed sheet) pair — so the number of
updates is enabled-sheet-count × (1 + additional-file-count). -/
theorem C3_amended_progress_totals (fs : FileSystem) (b : String)
    (files : List String) (cfgs : List (String × SheetConfig))
    (out : MergeOutput) (hnd : (cfgs.map Prod.fst).Nodup)
    (h : MergeFiles fs b files cfgs = .ok out) :
    (∀ u ∈ out.progress, u.total = cfgs.length * (1 + files.length)) ∧
    out.progress.length = enabledCount cfgs * (1 + files.length) := by
  obtain ⟨hb, hc, rs, hm, hout⟩ := MergeFiles_ok_elim fs b files cfgs out h
  subst hout
  rcases mergeBody_ok_elim fs b files cfgs (1 + files.length)
      (cfgs.length * (1 + files.length)) rs hm with
    ⟨tc, hl, he, rs1, hr, hf⟩ | ⟨hcase, hf⟩
  · obtain ⟨s1, s2, _, _, _⟩ := runSheet_ok_shape fs b files (1 + files.length)
      (cfgs.length * (1 + files.length)) initialRunState rs1 templateSheetName
      tc hr
    obtain ⟨g1, g2, _, _, _⟩ := sheetsFold_ok_shape fs b files
      (1 + files.length) (cfgs.length * (1 + files.length)) cfgs rs1 rs hf
    constructor
    · intro u hu
      rcases g2 u hu with hm1 | ht
      · rcases s2 u hm1 with hm2 | ht2
        · simp [initialRunState] at hm2
        · exact ht2
      · exact ht
    · show rs.progress.length = _
      rw [g1, s1]
      have hsplit := enabledCount_split cfgs hnd
      rw [hl] at hsplit
      dsimp only at hsplit
      rw [if_pos he] at hsplit
      simp only [initialRunState, List.length_nil]
      rw [hsplit]
      ring
  · obtain ⟨g1, g2, _, _, _⟩ := sheetsFold_ok_shape fs b files
      (1 + files.length) (cfgs.length * (1 + files.length)) cfgs
      initialRunState rs hf
    constructor
    · intro u hu
      rcases g2 u hu with hm1 | ht
      · simp [initialRunState] at hm1
      · exact ht
    · show rs.progress.length = _
      rw [g1]
      have hsplit := enabledCount_split cfgs hnd
      rcases hcase with hnone | ⟨tc, hl, he⟩
      · rw [hnone] at hsplit
        dsimp only at hsplit
        simp only [initialRunState, List.length_nil]
        rw [hsplit]
        ring
      · rw [hl] at hsplit
        dsimp only at hsplit
        rw [he] at hsplit
        simp only [Bool.false_eq_true, if_false] at hsplit
        simp only [initialRunState, List.length_nil]
        rw [hsplit]
        ring

/-- Witness for the amended C3 on a concrete run with a disabled sheet. -/
theorem C3_witness :
    (∀ u ∈ (((MergeFiles c3fs "b.xlsx" [] c3cfgs).toOption).getD
        emptyOutput).progress,
      u.total = c3cfgs.length * (1 + ([] : List String).length)) ∧
    (((MergeFiles c3fs "b.xlsx" [] c3cfgs).toOption).getD
        emptyOutput).progress.length =
      enabledCount c3cfgs * (1 + ([] : List String).length) :=
  C3_amended_progress_totals c3fs "b.xlsx" [] c3cfgs
    (((MergeFiles c3fs "b.xlsx" [] c3cfgs).toOption).getD emptyOutput)
    (by decide) (by rfl)

/-! ## Claim C7: per-file failures are recoverable -/

theorem length_flatMap_fileWarnings (fs : FileSystem) (sn : String)
    (cfg : SheetConfig) (l : List String) :
    (l.flatMap (fun p => fileWarnings fs sn cfg p)).length =
      (l.filter (fun p => (fileReadResult fs sn cfg p).isNone)).length := by
  induction l with
  | nil => rfl
  | cons p rest ih =>
    rw [List.flatMap_cons, List.filter_cons, List.length_append]
    cases h : fileReadResult fs sn cfg p with
    | none =>
      rw [fileWarnings_of_failure fs sn cfg p h, ih]
      simp [h]
      omega
    | some r =>
      rw [fileWarnings_of_success fs sn cfg p r h, ih]
      simp [h]

/-- C7: with a readable base sheet, each per-file recoverable failure (file
unopenable, sheet missing, rows unreadable) appends exactly one warning and
contributes zero rows, the sheet merge still returns successfully
(never an error), every file is still visited, and the warning list is exactly
the concatenation of the per-file warnings — one per failing file. -/
theorem C7_per_file_failures_recoverable (fs : FileSystem) (writer : Writer)
    (sn : String) (cfg : SheetConfig) (b : String) (files : List String)
    (currentOp : Nat) (progress : List ProgressUpdate)
    (ops : List (String × String)) (arts : List String) (totalOps : Nat)
    (baseWb : Workbook) (baseRows : List Row)
    (hfs : fs b = some baseWb) (hex : sheetExists baseWb sn = true)
    (hrows : getRows baseWb sn = some baseRows) :
    (∃ st, mergeSheetWithWriter fs writer sn cfg b files currentOp progress
        ops arts totalOps = .ok st ∧
       st.warnings = (b :: files).flatMap (fun p => fileWarnings fs sn cfg p) ∧
       st.warnings.length = ((b :: files).filter
         (fun p => (fileReadResult fs sn cfg p).isNone)).length ∧
       st.ops = ops ++ (b :: files).map (fun p => (p, sn))) ∧
    (∀ path, fileReadResult fs sn cfg path = none →
       (fileWarnings fs sn cfg path).length = 1) ∧
    (∀ path rows0, fileReadResult fs sn cfg path = some rows0 →
       fileWarnings fs sn cfg path = []) ∧
    (∀ (st1 : SheetMergeState) path,
       fileReadResult fs sn cfg path = none →
       processFileBody fs sn cfg baseRows st1 path =
         { st1 with warnings := st1.warnings ++ fileWarnings fs sn cfg path }) := by
  refine ⟨?_, fun path h => fileWarnings_of_failure fs sn cfg path h,
    fun path rows0 h => fileWarnings_of_success fs sn cfg path rows0 h,
    fun st1 path h => processFileBody_failure fs sn cfg baseRows st1 path h⟩
  refine ⟨processFiles fs sn cfg baseRows totalOps (b :: files).length 0
    ⟨(if cfg.headerRow > 0 ∧ (baseRows.length : Int) ≥ cfg.headerRow
      then (writer.createSheet sn).writeRows sn 1
        (baseRows.take cfg.headerRow.toNat)
      else writer.createSheet sn), [], currentOp, progress, ops, arts,
      cfg.headerRow + 1, 0⟩
    (b :: files),
    mergeSheetWithWriter_eq fs writer sn cfg b files currentOp progress ops
      arts totalOps baseWb baseRows hfs hex hrows, ?_, ?_, ?_⟩
  · obtain ⟨_, _, h3, _, _⟩ := processFiles_shape fs sn cfg baseRows totalOps
      (b :: files).length (b :: files) 0
      ⟨(if cfg.headerRow > 0 ∧ (baseRows.length : Int) ≥ cfg.headerRow
        then (writer.createSheet sn).writeRows sn 1
          (baseRows.take cfg.headerRow.toNat)
        else writer.createSheet sn), [], currentOp, progress, ops, arts,
        cfg.headerRow + 1, 0⟩
    simpa using h3
  · obtain ⟨_, _, h3, _, _⟩ := processFiles_shape fs sn cfg baseRows totalOps
      (b :: files).length (b :: files) 0
      ⟨(if cfg.headerRow > 0 ∧ (baseRows.length : Int) ≥ cfg.headerRow
        then (writer.createSheet sn).writeRows sn 1
          (baseRows.take cfg.headerRow.toNat)
        else writer.createSheet sn), [], currentOp, progress, ops, arts,
        cfg.headerRow + 1, 0⟩
    rw [h3]
    simp only [List.nil_append]
    exact length_flatMap_fileWarnings fs sn cfg (b :: files)
  · obtain ⟨_, h2, _, _, _⟩ := processFiles_shape fs sn cfg baseRows totalOps
      (b :: files).length (b :: files) 0
      ⟨(if cfg.headerRow > 0 ∧ (baseRows.length : Int) ≥ cfg.headerRow
        then (writer.createSheet sn).writeRows sn 1
          (baseRows.take cfg.headerRow.toNat)
        else writer.createSheet sn), [], currentOp, progress, ops, arts,
        cfg.headerRow + 1, 0⟩
    simpa using h2

/-- A scenario for the C7 witness: the base file is fine, one additional file
lacks the sheet, another cannot be opened. -/
def c7fs : FileSystem :=
  fun p =>
    if p = "b.xlsx" then some ⟨[("A", some [["h"], ["x"]])]⟩
    else if p = "f1.xlsx" then some ⟨[("Other", some [["y"]])]⟩
    else none

def c7cfg : SheetConfig := ⟨true, 1, -1, [], false⟩

/-- Witness for C7: with one sheetless file and one unopenable file the merge
still succeeds, visits all three files and reports exactly two warnings. -/
theorem C7_witness :
    (∃ st, mergeSheetWithWriter c7fs ⟨[]⟩ "A" c7cfg "b.xlsx"
        ["f1.xlsx", "f2.xlsx"] 0 [] [] [] 3 = .ok st ∧
       st.warnings = (["b.xlsx", "f1.xlsx", "f2.xlsx"] : List String).flatMap
         (fun p => fileWarnings c7fs "A" c7cfg p) ∧
       st.warnings.length = ((["b.xlsx", "f1.xlsx", "f2.xlsx"] :
           List String).filter
         (fun p => (fileReadResult c7fs "A" c7cfg p).isNone)).length ∧
       st.ops = [] ++ (["b.xlsx", "f1.xlsx", "f2.xlsx"] : List String).map
         (fun p => (p, "A"))) ∧
    (∀ path, fileReadResult c7fs "A" c7cfg path = none →
       (fileWarnings c7fs "A" c7cfg path).length = 1) ∧
    (∀ path rows0, fileReadResult c7fs "A" c7cfg path = some rows0 →
       fileWarnings c7fs "A" c7cfg path = []) ∧
    (∀ (st1 : SheetMergeState) path,
       fileReadResult c7fs "A" c7cfg path = none →
       processFileBody c7fs "A" c7cfg [["h"], ["x"]] st1 path =
         { st1 with warnings := st1.warnings ++
             fileWarnings c7fs "A" c7cfg path }) :=
  C7_per_file_failures_recoverable c7fs ⟨[]⟩ "A" c7cfg "b.xlsx"
    ["f1.xlsx", "f2.xlsx"] 0 [] [] [] 3 ⟨[("A", some [["h"], ["x"]])]⟩
    [["h"], ["x"]] (by rfl) (by rfl) (by rfl)

/-! ## Claim C5: key extraction -/

theorem findArticleColumnAux_spec :
    ∀ (l : List String) (i0 : Nat),
      (∀ i, findArticleColumnAux i0 l = some i →
        i0 ≤ i ∧ i - i0 < l.length ∧
        containsSubstr (goToLower (l.getD (i - i0) "")) articleMarker = true ∧
        ∀ j < i - i0,
          containsSubstr (goToLower (l.getD j "")) articleMarker = false) ∧
      (findArticleColumnAux i0 l = none →
        ∀ j < l.length,
          containsSubstr (goToLower (l.getD j "")) articleMarker = false) := by
  intro l
  induction l with
  | nil =>
    intro i0
    constructor
    · intro i h
      cases h
    · intro h j hj
      simp at hj
  | cons header rest ih =>
    intro i0
    by_cases hc : containsSubstr (goToLower header) articleMarker = true
    · constructor
      · intro i h
        unfold findArticleColumnAux at h
        rw [if_pos hc] at h
        cases h
        refine ⟨Nat.le_refl _, by simp, ?_, ?_⟩
        · simpa using hc
        · intro j hj
          omega
      · intro h
        unfold findArticleColumnAux at h
        rw [if_pos hc] at h
        cases h
    · have hcf : containsSubstr (goToLower header) articleMarker = false := by
        simpa using hc
      constructor
      · intro i h
        unfold findArticleColumnAux at h
        rw [if_neg hc] at h
        obtain ⟨hle, hlt, hget, hbefore⟩ := (ih (i0 + 1)).1 i h
        have hi : i0 + 1 ≤ i := hle
        refine ⟨by omega, by simp; omega, ?_, ?_⟩
        · have : i - i0 = (i - (i0 + 1)) + 1 := by omega
          rw [this]
          simpa using hget
        · intro j hj
          cases j with
          | zero => simpa using hcf
          | succ k =>
            have hk : k < i - (i0 + 1) := by omega
            have := hbefore k hk
            simpa using this
      · intro h j hj
        unfold findArticleColumnAux at h
        rw [if_neg hc] at h
        cases j with
        | zero => simpa using hcf
        | succ k =>
          have hk : k < rest.length := by simpa using hj
          have := (ih (i0 + 1)).2 h k hk
          simpa using this

/-- The header scan returns the first marker-bearing column: soundness of the
located index plus the exhaustive negative for the `none` case. -/
theorem findArticleColumn_spec (l : List String) :
    (∀ i, findArticleColumn l = some i →
      i < l.length ∧
      containsSubstr (goToLower (l.getD i "")) articleMarker = true ∧
      ∀ j < i, containsSubstr (goToLower (l.getD j "")) articleMarker = false) ∧
    (findArticleColumn l = none →
      ∀ j < l.length,
        containsSubstr (goToLower (l.getD j "")) articleMarker = false) := by
  have h := findArticleColumnAux_spec l 0
  constructor
  · intro i hi
    obtain ⟨_, hlt, hget, hbefore⟩ := h.1 i hi
    rw [Nat.sub_zero] at hlt hget
    refine ⟨hlt, hget, ?_⟩
    intro j hj
    exact hbefore j (by omega)
  · exact h.2

theorem mem_insertArticle (i : Nat) (articles : List String) (row : Row)
    (a : String) :
    a ∈ insertArticle i articles row ↔
      a ∈ articles ∨
        (i < row.length ∧ goTrimSpace (row.getD i "") = a ∧ a ≠ "") := by
  unfold insertArticle
  by_cases hlen : i < row.length
  · rw [if_pos hlen]
    dsimp only
    by_cases hne : goTrimSpace (row.getD i "") ≠ ""
    · rw [if_pos hne, List.mem_insert_iff]
      constructor
      · rintro (rfl | h)
        · exact Or.inr ⟨hlen, rfl, hne⟩
        · exact Or.inl h
      · rintro (h | ⟨_, rfl, hne2⟩)
        · exact Or.inr h
        · exact Or.inl rfl
    · rw [if_neg hne]
      push_neg at hne
      constructor
      · exact Or.inl
      · rintro (h | ⟨_, heq, hne2⟩)
        · exact h
        · rw [← heq, hne] at hne2
          exact absurd rfl hne2
  · rw [if_neg hlen]
    constructor
    · exact Or.inl
    · rintro (h | ⟨hl, _, _⟩)
      · exact h
      · exact absurd hl hlen

theorem mem_extract_fold (i : Nat) :
    ∀ (rows : List Row) (acc : List String) (a : String),
      a ∈ rows.foldl (insertArticle i) acc ↔
        a ∈ acc ∨ ∃ row ∈ rows,
          i < row.length ∧ goTrimSpace (row.getD i "") = a ∧ a ≠ "" := by
  intro rows
  induction rows with
  | nil => intro acc a; simp
  | cons r rs ih =>
    intro acc a
    rw [List.foldl_cons, ih, mem_insertArticle]
    simp only [List.mem_cons]
    constructor
    · rintro ((h | h) | ⟨row, hmem, h⟩)
      · exact Or.inl h
      · exact Or.inr ⟨r, Or.inl rfl, h⟩
      · exact Or.inr ⟨row, Or.inr hmem, h⟩
    · rintro (h | ⟨row, (rfl | hmem), h⟩)
      · exact Or.inl (Or.inl h)
      · exact Or.inl (Or.inr h)
      · exact Or.inr ⟨row, hmem, h⟩

/-- C5: key extraction scans the header for the first column containing the
(case-folded) marker `"артикул"`; with no such column nothing is extracted;
with column `i`, the extracted set is exactly the trimmed non-empty cells of
column `i` over the rows that reach it; and over one template-sheet merge the
key set accumulates as the union, across all files, of each file's extraction
from its surviving rows. -/
theorem C5_key_extraction (header : List String) (rows : List Row)
    (fs : FileSystem) (writer : Writer) (cfg : SheetConfig) (b : String)
    (files : List String) (currentOp : Nat) (progress : List ProgressUpdate)
    (ops : List (String × String)) (arts : List String) (totalOps : Nat)
    (baseWb : Workbook) (baseRows : List Row)
    (hfs : fs b = some baseWb)
    (hex : sheetExists baseWb templateSheetName = true)
    (hrows : getRows baseWb templateSheetName = some baseRows) :
    (∀ i, findArticleColumn header = some i →
      i < header.length ∧
      containsSubstr (goToLower (header.getD i "")) articleMarker = true ∧
      ∀ j < i,
        containsSubstr (goToLower (header.getD j "")) articleMarker = false) ∧
    (findArticleColumn header = none →
      extractArticlesFromRows header rows = []) ∧
    (∀ i, findArticleColumn header = some i → ∀ a,
      a ∈ extractArticlesFromRows header rows ↔
        ∃ row ∈ rows,
          i < row.length ∧ goTrimSpace (row.getD i "") = a ∧ a ≠ "") ∧
    (∃ st, mergeSheetWithWriter fs writer templateSheetName cfg b files
        currentOp progress ops arts totalOps = .ok st ∧
      ∀ a, a ∈ st.templateArticles ↔
        a ∈ arts ∨ ∃ p ∈ b :: files,
          a ∈ extractArticlesFromRows (headerCells cfg baseRows)
            (fileContribRows fs templateSheetName cfg p)) := by
  refine ⟨(findArticleColumn_spec header).1, ?_, ?_, ?_⟩
  · intro hnone
    unfold extractArticlesFromRows
    rw [hnone]
  · intro i hi a
    unfold extractArticlesFromRows
    rw [hi]
    rw [mem_extract_fold]
    simp
  · refine ⟨processFiles fs templateSheetName cfg baseRows totalOps
      (b :: files).length 0
      ⟨(if cfg.headerRow > 0 ∧ (baseRows.length : Int) ≥ cfg.headerRow
        then (writer.createSheet templateSheetName).writeRows templateSheetName
          1 (baseRows.take cfg.headerRow.toNat)
        else writer.createSheet templateSheetName), [], currentOp, progress,
        ops, arts, cfg.headerRow + 1, 0⟩
      (b :: files),
      mergeSheetWithWriter_eq fs writer templateSheetName cfg b files
        currentOp progress ops arts totalOps baseWb baseRows hfs hex hrows,
      ?_⟩
    intro a
    exact processFiles_articles_template fs cfg baseRows totalOps
      (b :: files).length (b :: files) 0
      ⟨(if cfg.headerRow > 0 ∧ (baseRows.length : Int) ≥ cfg.headerRow
        then (writer.createSheet templateSheetName).writeRows templateSheetName
          1 (baseRows.take cfg.headerRow.toNat)
        else writer.createSheet templateSheetName), [], currentOp, progress,
        ops, arts, cfg.headerRow + 1, 0⟩ a

/-- Witness for C5 on concrete template data: two files contribute keys that
accumulate as a union. -/
theorem C5_witness :
    ((∀ i, findArticleColumn ["Бренд", "Артикул товара"] = some i →
      i < (["Бренд", "Артикул товара"] : List String).length ∧
      containsSubstr (goToLower ((["Бренд", "Артикул товара"] :
          List String).getD i "")) articleMarker = true ∧
      ∀ j < i, containsSubstr (goToLower ((["Бренд", "Артикул товара"] :
          List String).getD j "")) articleMarker = false) ∧
    (findArticleColumn ["Бренд", "Артикул товара"] = none →
      extractArticlesFromRows ["Бренд", "Артикул товара"]
        [["b", " a1 "], ["b", ""]] = []) ∧
    (∀ i, findArticleColumn ["Бренд", "Артикул товара"] = some i → ∀ a,
      a ∈ extractArticlesFromRows ["Бренд", "Артикул товара"]
          [["b", " a1 "], ["b", ""]] ↔
        ∃ row ∈ ([["b", " a1 "], ["b", ""]] : List Row),
          i < row.length ∧ goTrimSpace (row.getD i "") = a ∧ a ≠ "") ∧
    (∃ st, mergeSheetWithWriter c8fs ⟨[]⟩ templateSheetName c8tc "b.xlsx" []
        0 [] [] [] 2 = .ok st ∧
      ∀ a, a ∈ st.templateArticles ↔
        a ∈ ([] : List String) ∨ ∃ p ∈ ["b.xlsx"],
          a ∈ extractArticlesFromRows
            (headerCells c8tc [["Артикул"], ["a1"], [""]])
            (fileContribRows c8fs templateSheetName c8tc p))) :=
  C5_key_extraction ["Бренд", "Артикул товара"] [["b", " a1 "], ["b", ""]]
    c8fs ⟨[]⟩ c8tc "b.xlsx" [] 0 [] [] [] 2
    ⟨[("Шаблон", some [["Артикул"], ["a1"], [""]]),
      ("D", some [["Артикул озон"], ["a1"], ["zz"]])]⟩
    [["Артикул"], ["a1"], [""]] (by rfl) (by rfl) (by rfl)

/-! ## Claim C1: key-based filtering with an empty or unlocatable key set -/

def c1fs : FileSystem :=
  fun p => if p = "b.xlsx" then
    some ⟨[("S", some [["Бренд", "Артикул"], ["brand", "a1"]])]⟩
  else none

def c1cfg : SheetConfig := ⟨true, 1, -1, [], true⟩

/-- Counterexample to C1 as stated: sheet `"S"` uses extracted keys, no
template sheet is configured, so the accumulated key set stays empty — yet the
run writes 1 row for `"S"` instead of the claimed 0: with an empty key set the
key-filter stage is skipped (fail-open), not applied fail-closed. -/
theorem C1_counterexample :
    c1cfg.useTemplateArticles = true ∧
    (MergeFiles c1fs "b.xlsx" [] [("S", c1cfg)]).map
        (fun o => (o.templateArticles, o.result.sheetStats)) =
      .ok ([], [("S", ⟨1, 1⟩)]) := by
  exact ⟨rfl, by rfl⟩

/-- C1 as amended: on a sheet configured with `useExtractedKeys`, when the
accumulated key set is **empty** the key stage is skipped entirely and the
file's surviving rows pass through unfiltered (fail-open); when the key set is
**non-empty** but the key column cannot be located in the header, the stage
discards all rows (fail-closed, zero rows written); at the filter level, a
non-empty key set with no locatable key column yields the empty batch, and an
empty key set makes the guarded stage the identity. -/
theorem C1_amended_key_stage (fs : FileSystem) (sn : String)
    (cfg : SheetConfig) (baseRows : List Row) (st : SheetMergeState)
    (path : String) (rows0 : List Row)
    (hk : cfg.useTemplateArticles = true) (ht : sn ≠ templateSheetName)
    (hread : fileReadResult fs sn cfg path = some rows0) :
    (st.templateArticles = [] →
      processFileBody fs sn cfg baseRows st path =
        { st with
            writer := st.writer.writeRows sn st.currentRow
              (colPipeline cfg rows0),
            currentRow := st.currentRow + ((colPipeline cfg rows0).length : Int),
            rowsMerged := st.rowsMerged + (colPipeline cfg rows0).length }) ∧
    (st.templateArticles ≠ [] →
      findArticleColumn (headerCells cfg baseRows) = none →
      (processFileBody fs sn cfg baseRows st path).rowsMerged = st.rowsMerged ∧
      (processFileBody fs sn cfg baseRows st path).writer = st.writer) ∧
    (∀ (header : List String) (drows : List Row) (arts : List String),
      arts ≠ [] → findArticleColumn header = none →
      filterRowsByArticles header drows arts = []) ∧
    (∀ (header : List String) (drows : List Row),
      keyStage cfg header [] drows = drows) := by
  have hcond : ¬(sn = templateSheetName ∧ colPipeline cfg rows0 ≠ []) :=
    fun hcc => ht hcc.1
  refine ⟨?_, ?_, ?_, ?_⟩
  · intro hemp
    rw [processFileBody_success fs sn cfg baseRows st path rows0 hread]
    dsimp only
    rw [if_neg hcond]
    have hks : keyStage cfg (headerCells cfg baseRows) st.templateArticles
        (colPipeline cfg rows0) = colPipeline cfg rows0 := by
      unfold keyStage
      have hkc : ¬(cfg.useTemplateArticles = true ∧ st.templateArticles ≠ [] ∧
          colPipeline cfg rows0 ≠ []) := by
        rintro ⟨_, hne, _⟩
        exact hne hemp
      rw [if_neg hkc]
    rw [hks]
    by_cases hw : colPipeline cfg rows0 ≠ []
    · rw [if_pos hw]
    · rw [if_neg hw]
      push_neg at hw
      rw [hw, Writer.writeRows_nil]
      cases st
      simp
  · intro hne hnone
    rw [processFileBody_success fs sn cfg baseRows st path rows0 hread]
    dsimp only
    rw [if_neg hcond]
    have hks : keyStage cfg (headerCells cfg baseRows) st.templateArticles
        (colPipeline cfg rows0) = [] := by
      unfold keyStage
      by_cases hw : colPipeline cfg rows0 ≠ []
      · rw [if_pos ⟨hk, hne, hw⟩]
        unfold filterRowsByArticles
        rw [if_neg hne, hnone]
      · rw [if_neg (fun hcc => hw hcc.2.2)]
        push_neg at hw
        exact hw
    rw [hks]
    rw [if_neg (by simp)]
    exact ⟨rfl, rfl⟩
  · intro header drows arts hne hnone
    unfold filterRowsByArticles
    rw [if_neg hne, hnone]
  · intro header drows
    unfold keyStage
    rw [if_neg (fun hcc => hcc.2.1 rfl)]

def c1st : SheetMergeState := ⟨⟨[("S", [])]⟩, [], 0, [], [], [], 2, 0⟩

def c1stK : SheetMergeState := ⟨⟨[("S", [])]⟩, [], 0, [], [], ["zz"], 2, 0⟩

/-- Witness for the amended C1: both the fail-open (empty key set) and the
fail-closed (unlocatable key column) behaviours at a concrete file. -/
theorem C1_witness :
    (processFileBody c1fs "S" c1cfg [["Brand"]] c1st "b.xlsx" =
      { c1st with
          writer := c1st.writer.writeRows "S" c1st.currentRow
            (colPipeline c1cfg [["brand", "a1"]]),
          currentRow := c1st.currentRow +
            ((colPipeline c1cfg [["brand", "a1"]]).length : Int),
          rowsMerged := c1st.rowsMerged +
            (colPipeline c1cfg [["brand", "a1"]]).length }) ∧
    ((processFileBody c1fs "S" c1cfg [["Brand"]] c1stK "b.xlsx").rowsMerged =
        c1stK.rowsMerged ∧
      (processFileBody c1fs "S" c1cfg [["Brand"]] c1stK "b.xlsx").writer =
        c1stK.writer) ∧
    filterRowsByArticles ["X"] [["r"]] ["k"] = [] ∧
    keyStage c1cfg ["X"] [] [["r"]] = [["r"]] :=
  ⟨(C1_amended_key_stage c1fs "S" c1cfg [["Brand"]] c1st "b.xlsx"
      [["brand", "a1"]] rfl (by decide) (by rfl)).1 rfl,
   (C1_amended_key_stage c1fs "S" c1cfg [["Brand"]] c1stK "b.xlsx"
      [["brand", "a1"]] rfl (by decide) (by rfl)).2.1 (by decide) (by rfl),
   (C1_amended_key_stage c1fs "S" c1cfg [["Brand"]] c1st "b.xlsx"
      [["brand", "a1"]] rfl (by decide) (by rfl)).2.2.1 ["X"] [["r"]] ["k"]
      (by decide) (by rfl),
   (C1_amended_key_stage c1fs "S" c1cfg [["Brand"]] c1st "b.xlsx"
      [["brand", "a1"]] rfl (by decide) (by rfl)).2.2.2 ["X"] [["r"]]⟩

/-! ## Claim C4: header copy and contiguous appending -/

/-- One file-loop step on a non-template sheet with no key filtering: counters
and traces advance, and the file's contribution is written at the row cursor,
which advances by its length. -/
theorem processFile_nokey (fs : FileSystem) (sn : String) (cfg : SheetConfig)
    (baseRows : List Row) (totalOps numFiles idx : Nat)
    (st : SheetMergeState) (path : String)
    (hk : cfg.useTemplateArticles = false) (ht : sn ≠ templateSheetName) :
    processFile fs sn cfg baseRows totalOps numFiles idx st path =
      { st with
          currentOp := st.currentOp + 1,
          progress := st.progress ++ [⟨st.currentOp + 1, totalOps,
            progressMsg path sn idx numFiles⟩],
          ops := st.ops ++ [(path, sn)],
          warnings := st.warnings ++ fileWarnings fs sn cfg path,
          writer := st.writer.writeRows sn st.currentRow
            (fileContribRows fs sn cfg path),
          currentRow := st.currentRow +
            ((fileContribRows fs sn cfg path).length : Int),
          rowsMerged := st.rowsMerged +
            (fileContribRows fs sn cfg path).length } := by
  unfold processFile
  dsimp only
  rw [processFileBody_nokey fs sn cfg baseRows _ path hk ht]

theorem rowNumbers_concat (H k : Nat) :
    ((List.range H).map (fun (i : Nat) => (1 : Int) + i) ++
      (List.range k).map (fun (i : Nat) => ((H : Int) + 1) + i)) ++
      (List.range k).map (fun (i : Nat) => ((H : Int) + 1 + (k : Int)) + i) =
    (List.range (H + 2 * k)).map (fun (i : Nat) => (i : Int) + 1) := by
  rw [show H + 2 * k = H + k + k by ring, List.range_add, List.range_add]
  rw [List.map_append, List.map_append]
  congr 1
  congr 1
  · apply List.map_congr_left
    intro i _
    ring
  · rw [List.map_map]
    apply List.map_congr_left
    intro i _
    simp only [Function.comp_apply]
    push_cast
    ring
  · rw [List.map_map]
    apply List.map_congr_left
    intro i _
    simp only [Function.comp_apply]
    push_cast
    ring

/-- C4: for an enabled sheet with header row `H`, the merge copies rows
`1..H` verbatim from the base file, then appends each file's surviving
(non-blank) data rows contiguously from row `H + 1` in the fixed order
base-then-additional; with no filters configured, a base sheet holding only
its `H` header rows and two additional files surviving `k` data rows each,
`totalRows = 2k` and the output sheet holds exactly rows `1..H + 2k`. -/
theorem C4_header_copy_and_contiguous_append (fs : FileSystem) (b : String)
    (s : String) (cfg : SheetConfig) (baseWb : Workbook)
    (baseRows : List Row) (H : Nat) (f1 f2 : String) (wb1 wb2 : Workbook)
    (r1 r2 : List Row) (d1 d2 : List Row) (k : Nat)
    (hb : b ≠ "") (hsn : s ≠ templateSheetName)
    (hen : cfg.enabled = true) (hcfgH : cfg.headerRow = (H : Int))
    (hH : 0 < H) (hfvals : cfg.filterValues = [])
    (hkU : cfg.useTemplateArticles = false)
    (hfs : fs b = some baseWb)
    (hlb : baseWb.sheets.lookup s = some (some baseRows))
    (hlen : baseRows.length = H)
    (hf1 : fs f1 = some wb1) (hl1 : wb1.sheets.lookup s = some (some r1))
    (hd1 : filterEmptyRows (r1.drop H) = d1) (hk1 : d1.length = k)
    (hf2 : fs f2 = some wb2) (hl2 : wb2.sheets.lookup s = some (some r2))
    (hd2 : filterEmptyRows (r2.drop H) = d2) (hk2 : d2.length = k) :
    ∃ out, MergeFiles fs b [f1, f2] [(s, cfg)] = .ok out ∧
      out.result.totalRows = 2 * k ∧
      out.writer.sheetWrites s =
        writeRowsAt 1 baseRows ++ writeRowsAt ((H : Int) + 1) d1 ++
          writeRowsAt ((H : Int) + 1 + (k : Int)) d2 ∧
      (out.writer.sheetWrites s).map Prod.fst =
        (List.range (H + 2 * k)).map (fun (i : Nat) => (i : Int) + 1) ∧
      ((out.writer.sheetWrites s).take H).map Prod.snd = baseRows ∧
      ((out.writer.sheetWrites s).drop H).map Prod.snd = d1 ++ d2 := by
  have hex : sheetExists baseWb s = true := by simp [sheetExists, hlb]
  have hgr : getRows baseWb s = some baseRows := by simp [getRows, hlb]
  have hcol : ∀ x, colPipeline cfg x = filterEmptyRows x := by
    intro x
    unfold colPipeline
    rw [if_neg (by rintro ⟨_, hne⟩; exact hne hfvals)]
  -- contributions of the three files
  have hcb : fileContribRows fs s cfg b = [] := by
    unfold fileContribRows fileReadResult
    rw [hfs]
    dsimp only
    rw [if_pos hex]
    unfold getDataRows
    rw [hgr]
    dsimp only [Option.map]
    rw [hlen, hcfgH, if_pos (le_refl _)]
    rw [hcol]
    rfl
  have hc1 : fileContribRows fs s cfg f1 = d1 := by
    unfold fileContribRows fileReadResult
    rw [hf1]
    dsimp only
    rw [if_pos (by simp [sheetExists, hl1])]
    unfold getDataRows
    rw [show getRows wb1 s = some r1 by simp [getRows, hl1]]
    dsimp only [Option.map]
    rw [hcfgH]
    by_cases hlen1 : (r1.length : Int) ≤ (H : Int)
    · rw [if_pos hlen1, hcol]
      have hdrop : r1.drop H = [] :=
        List.drop_eq_nil_of_le (by exact_mod_cast hlen1)
      rw [← hd1, hdrop]
    · rw [if_neg hlen1, hcol, Int.toNat_natCast, hd1]
  have hc2 : fileContribRows fs s cfg f2 = d2 := by
    unfold fileContribRows fileReadResult
    rw [hf2]
    dsimp only
    rw [if_pos (by simp [sheetExists, hl2])]
    unfold getDataRows
    rw [show getRows wb2 s = some r2 by simp [getRows, hl2]]
    dsimp only [Option.map]
    rw [hcfgH]
    by_cases hlen2 : (r2.length : Int) ≤ (H : Int)
    · rw [if_pos hlen2, hcol]
      have hdrop : r2.drop H = [] :=
        List.drop_eq_nil_of_le (by exact_mod_cast hlen2)
      rw [← hd2, hdrop]
    · rw [if_neg hlen2, hcol, Int.toNat_natCast, hd2]
  -- the initial sheet-merge state
  have hw0cond : cfg.headerRow > 0 ∧ (baseRows.length : Int) ≥ cfg.headerRow := by
    rw [hcfgH, hlen]
    constructor
    · exact_mod_cast hH
    · exact le_refl _
  have htake : baseRows.take cfg.headerRow.toNat = baseRows := by
    rw [hcfgH, Int.toNat_natCast, ← hlen, List.take_length]
  -- the per-sheet merge expressed as three loop steps
  have hmw := mergeSheetWithWriter_eq fs (⟨[]⟩ : Writer) s cfg b [f1, f2] 0 []
    [] [] 3 baseWb baseRows hfs hex hgr
  rw [if_pos hw0cond, htake] at hmw
  set st0 : SheetMergeState :=
    ⟨((⟨[]⟩ : Writer).createSheet s).writeRows s 1 baseRows, [], 0, [], [], [],
      cfg.headerRow + 1, 0⟩ with hst0
  have hchain : processFiles fs s cfg baseRows 3 3 0 st0 [b, f1, f2] =
      processFile fs s cfg baseRows 3 3 2
        (processFile fs s cfg baseRows 3 3 1
          (processFile fs s cfg baseRows 3 3 0 st0 b) f1) f2 := rfl
  have hstep0 := processFile_nokey fs s cfg baseRows 3 3 0 st0 b hkU hsn
  rw [hcb] at hstep0
  set st1 : SheetMergeState :=
    { st0 with
        currentOp := st0.currentOp + 1,
        progress := st0.progress ++ [⟨st0.currentOp + 1, 3,
          progressMsg b s 0 3⟩],
        ops := st0.ops ++ [(b, s)],
        warnings := st0.warnings ++ fileWarnings fs s cfg b,
        writer := st0.writer.writeRows s st0.currentRow [],
        currentRow := st0.currentRow + (([] : List Row).length : Int),
        rowsMerged := st0.rowsMerged + ([] : List Row).length } with hst1
  have hstep1 := processFile_nokey fs s cfg baseRows 3 3 1 st1 f1 hkU hsn
  rw [hc1] at hstep1
  set st2 : SheetMergeState :=
    { st1 with
        currentOp := st1.currentOp + 1,
        progress := st1.progress ++ [⟨st1.currentOp + 1, 3,
          progressMsg f1 s 1 3⟩],
        ops := st1.ops ++ [(f1, s)],
        warnings := st1.warnings ++ fileWarnings fs s cfg f1,
        writer := st1.writer.writeRows s st1.currentRow d1,
        currentRow := st1.currentRow + (d1.length : Int),
        rowsMerged := st1.rowsMerged + d1.length } with hst2
  have hstep2 := processFile_nokey fs s cfg baseRows 3 3 2 st2 f2 hkU hsn
  rw [hc2] at hstep2
  set st3 : SheetMergeState :=
    { st2 with
        currentOp := st2.currentOp + 1,
        progress := st2.progress ++ [⟨st2.currentOp + 1, 3,
          progressMsg f2 s 2 3⟩],
        ops := st2.ops ++ [(f2, s)],
        warnings := st2.warnings ++ fileWarnings fs s cfg f2,
        writer := st2.writer.writeRows s st2.currentRow d2,
        currentRow := st2.currentRow + (d2.length : Int),
        rowsMerged := st2.rowsMerged + d2.length } with hst3
  have hST : processFiles fs s cfg baseRows 3 3 0 st0 [b, f1, f2] = st3 := by
    rw [hchain, hstep0, hstep1, hstep2]
  have hmw2 : mergeSheetWithWriter fs (⟨[]⟩ : Writer) s cfg b [f1, f2] 0 []
      [] [] 3 = .ok (processFiles fs s cfg baseRows 3 3 0 st0 [b, f1, f2]) :=
    hmw
  rw [hST] at hmw2
  -- run-level assembly
  have hrun : runSheet fs b [f1, f2] 3 3 initialRunState s cfg =
      .ok ⟨st3.writer, st3.currentOp, st3.progress, st3.ops,
        st3.templateArticles, 1, 0 + st3.rowsMerged,
        [(s, ⟨st3.rowsMerged, 3⟩)], st3.warnings⟩ := by
    unfold runSheet
    dsimp only [initialRunState]
    rw [hmw2]
    rfl
  have hlookupT : ([(s, cfg)] : List (String × SheetConfig)).lookup
      templateSheetName = none := by
    have hne : (templateSheetName == s) = false :=
      beq_eq_false_iff_ne.mpr (fun h => hsn h.symm)
    simp [List.lookup_cons, hne]
  have hbody : mergeBody fs b [f1, f2] [(s, cfg)] 3 3 =
      runSheet fs b [f1, f2] 3 3 initialRunState s cfg := by
    unfold mergeBody
    rw [hlookupT]
    dsimp only
    rw [sheetsFold_cons_ok]
    dsimp only
    rw [if_neg hsn, if_pos hen]
    rfl
  have hmf : MergeFiles fs b [f1, f2] [(s, cfg)] =
      .ok (buildOutput 3 ⟨st3.writer, st3.currentOp, st3.progress, st3.ops,
        st3.templateArticles, 1, 0 + st3.rowsMerged,
        [(s, ⟨st3.rowsMerged, 3⟩)], st3.warnings⟩) := by
    unfold MergeFiles
    rw [if_neg hb, if_neg (by simp)]
    dsimp only
    show (mergeBody fs b [f1, f2] [(s, cfg)] 3 3).map (buildOutput 3) = _
    rw [hbody, hrun]
    rfl
  -- field computations
  have hrows3 : st3.rowsMerged = 2 * k := by
    simp only [hst3, hst2, hst1, hst0]
    simp [hk1, hk2]
    omega
  have hwriter3 : st3.writer =
      ((((⟨[]⟩ : Writer).createSheet s).writeRows s 1 baseRows).writeRows s
        ((H : Int) + 1) d1).writeRows s ((H : Int) + 1 + (k : Int)) d2 := by
    simp only [hst3, hst2, hst1, hst0]
    simp [Writer.writeRows_nil, hcfgH, hk1]
  -- sheet writes of the final writer
  have hsome0 : (((((⟨[]⟩ : Writer).createSheet s).writeRows s 1
      baseRows).sheets).lookup s).isSome = true := by
    rw [Writer.lookup_writeRows_isSome]
    simp [Writer.createSheet, List.lookup_cons]
  have hsome1 : ((((((⟨[]⟩ : Writer).createSheet s).writeRows s 1
      baseRows).writeRows s ((H : Int) + 1) d1).sheets).lookup s).isSome =
        true := by
    rw [Writer.lookup_writeRows_isSome]
    exact hsome0
  have hsw : ((((((⟨[]⟩ : Writer).createSheet s).writeRows s 1
      baseRows).writeRows s ((H : Int) + 1) d1).writeRows s
        ((H : Int) + 1 + (k : Int)) d2).sheetWrites s) =
      writeRowsAt 1 baseRows ++ writeRowsAt ((H : Int) + 1) d1 ++
        writeRowsAt ((H : Int) + 1 + (k : Int)) d2 := by
    rw [Writer.sheetWrites_writeRows _ _ _ _ hsome1,
      Writer.sheetWrites_writeRows _ _ _ _ hsome0]
    have hbase : ((⟨[]⟩ : Writer).createSheet s).sheetWrites s = [] := by
      simp [Writer.createSheet, Writer.sheetWrites, List.lookup_cons]
    rw [Writer.sheetWrites_writeRows _ _ _ _ (by
      simp [Writer.createSheet, List.lookup_cons]), hbase]
    simp
  refine ⟨_, hmf, ?_, ?_, ?_, ?_, ?_⟩
  · show 0 + st3.rowsMerged = 2 * k
    rw [hrows3]
    omega
  · show st3.writer.sheetWrites s = _
    rw [hwriter3, hsw]
  · show (st3.writer.sheetWrites s).map Prod.fst = _
    rw [hwriter3, hsw]
    rw [List.map_append, List.map_append]
    rw [writeRowsAt_map_fst, writeRowsAt_map_fst, writeRowsAt_map_fst,
      hlen, hk1, hk2]
    exact rowNumbers_concat H k
  · show ((st3.writer.sheetWrites s).take H).map Prod.snd = baseRows
    rw [hwriter3, hsw]
    have hlenA : (writeRowsAt 1 baseRows).length = H := by
      rw [writeRowsAt_length, hlen]
    rw [List.append_assoc]
    rw [← hlenA, List.take_left]
    exact writeRowsAt_map_snd 1 baseRows
  · show ((st3.writer.sheetWrites s).drop H).map Prod.snd = d1 ++ d2
    rw [hwriter3, hsw]
    have hlenA : (writeRowsAt 1 baseRows).length = H := by
      rw [writeRowsAt_length, hlen]
    rw [List.append_assoc]
    rw [← hlenA, List.drop_left]
    rw [List.map_append, writeRowsAt_map_snd, writeRowsAt_map_snd]

def c4fs : FileSystem :=
  fun p =>
    if p = "b.xlsx" then some ⟨[("Sales", some [["hdr"]])]⟩
    else if p = "f1.xlsx" then some ⟨[("Sales", some [["hdr"], ["x1"]])]⟩
    else if p = "f2.xlsx" then some ⟨[("Sales", some [["hdr"], ["y1"]])]⟩
    else none

def c4cfg : SheetConfig := ⟨true, 1, -1, [], false⟩

/-- Witness for C4: header row 1, two files contributing one data row each —
the output sheet carries rows `1..3`: the copied header then the two data
rows in file order. -/
theorem C4_witness :
    ∃ out, MergeFiles c4fs "b.xlsx" ["f1.xlsx", "f2.xlsx"]
        [("Sales", c4cfg)] = .ok out ∧
      out.result.totalRows = 2 * 1 ∧
      out.writer.sheetWrites "Sales" =
        writeRowsAt 1 [["hdr"]] ++ writeRowsAt (((1 : Nat) : Int) + 1)
          [["x1"]] ++ writeRowsAt (((1 : Nat) : Int) + 1 + ((1 : Nat) : Int))
          [["y1"]] ∧
      (out.writer.sheetWrites "Sales").map Prod.fst =
        (List.range (1 + 2 * 1)).map (fun (i : Nat) => (i : Int) + 1) ∧
      ((out.writer.sheetWrites "Sales").take 1).map Prod.snd = [["hdr"]] ∧
      ((out.writer.sheetWrites "Sales").drop 1).map Prod.snd =
        [["x1"]] ++ [["y1"]] :=
  C4_header_copy_and_contiguous_append c4fs "b.xlsx" "Sales" c4cfg
    ⟨[("Sales", some [["hdr"]])]⟩ [["hdr"]] 1 "f1.xlsx" "f2.xlsx"
    ⟨[("Sales", some [["hdr"], ["x1"]])]⟩ ⟨[("Sales", some [["hdr"], ["y1"]])]⟩
    [["hdr"], ["x1"]] [["hdr"], ["y1"]] [["x1"]] [["y1"]] 1
    (by decide) (by decide) rfl rfl (by decide) rfl rfl (by rfl) (by rfl)
    (by rfl) (by rfl) (by rfl) (by rfl) (by rfl) (by rfl) (by rfl) (by rfl)
    (by rfl)

end MergeExcel
